import Mathlib

/-!
# MTUCI Task Manager: the request validator and the chat dialog

A shallow embedding of `api/middleware.go` (`validateInitData`, `withAuth`) and of
`bot/handlers.go` / `bot/keyboards.go` (the task-creation dialog and the callback
dispatcher), followed by the properties proved about them.

Conventions of the embedding.

* A Go `string` is a sequence of bytes.  It is embedded as a Lean `String`; the
  separators the code looks for (`&`, `=`, `;`, `%`, `+`, `_`) are single bytes, so
  cutting and comparing behave alike on both sides, and the byte-wise order of Go
  strings is the order of `String`.  A percent escape `%XY` decodes to the one
  character with code `16 * X + Y`.
* `HMAC-SHA256`, `hex.EncodeToString` and `json.Unmarshal` are library functions the
  code calls; they are fields of `Externals` and every theorem holds for all of them.
* `url.ParseQuery` is the Go standard library parser; it is embedded from its
  definition in `net/url`.
* Go functions returning `(value, error)` return `Except`.
-/

namespace TaskManager

/-! ## Data model of `api/middleware.go` -/

/-- TelegramUser of `api/middleware.go`: the identity carried by the signed blob. -/
structure TelegramUser where
  ID : Int
  FirstName : String
  LastName : String
  Username : String
  deriving DecidableEq, Repr

deriving instance DecidableEq for Except

/-- The library functions `validateInitData` calls.  `hmacSHA256 key message` is the
32-byte MAC (as a byte string), `hexEncode` is `hex.EncodeToString`, `jsonUnmarshal`
is `json.Unmarshal` into a `TelegramUser` (its error carries the decoder's text).
`signature_nonempty` records the one fact about them that the code's behaviour
depends on: a MAC has 32 bytes, so its hex encoding (64 characters) is not empty. -/
structure Externals where
  hmacSHA256 : String → String → String
  hexEncode : String → String
  jsonUnmarshal : String → Except String TelegramUser
  signature_nonempty : ∀ key message, hexEncode (hmacSHA256 key message) ≠ ""

/-! ## `net/url`: query parsing -/

/-- The type `url.Values` (`map[string][]string`): each key once, with its values in
the order they were appended.  The list order stands for one enumeration order of
the map. -/
abbrev Values := List (String × List String)

/-- Method `Values.Get`: the first value of the key, `""` when there is none. -/
def Values.Get (v : Values) (key : String) : String :=
  match v.lookup key with
  | some (x :: _) => x
  | _ => ""

/-- Method `Values.Del`: removes the key with all its values. -/
def Values.Del (v : Values) (key : String) : Values :=
  v.filter (fun p => p.1 ≠ key)

/-- The statement `m[key] = append(m[key], value)` of `parseQuery`. -/
def Values.Add : Values → String → String → Values
  | [], key, value => [(key, [value])]
  | (k, vs) :: rest, key, value =>
    if k = key then (k, vs ++ [value]) :: rest
    else (k, vs) :: Values.Add rest key value

/-- The keys visited by `for k := range values` (in the order of the list). -/
def Values.keys (v : Values) : List String :=
  v.map Prod.fst

/-- Function `ishex` of `net/url`. -/
def ishex (c : Char) : Bool :=
  ('0' ≤ c && c ≤ '9') || ('a' ≤ c && c ≤ 'f') || ('A' ≤ c && c ≤ 'F')

/-- Function `unhex` of `net/url`. -/
def unhex (c : Char) : Nat :=
  if '0' ≤ c ∧ c ≤ '9' then c.toNat - '0'.toNat
  else if 'a' ≤ c ∧ c ≤ 'f' then c.toNat - 'a'.toNat + 10
  else if 'A' ≤ c ∧ c ≤ 'F' then c.toNat - 'A'.toNat + 10
  else 0

/-- Function `url.QueryUnescape` on the bytes of a string: `%XY` becomes the byte
`XY`, `+` becomes a space; `none` is the `EscapeError` of a `%` that is not followed
by two hex digits. -/
def unescape : List Char → Option (List Char)
  | [] => some []
  | c :: rest =>
    if c = '%' then
      match rest with
      | a :: b :: rest2 =>
        if ishex a && ishex b then
          (unescape rest2).map (fun t => Char.ofNat (unhex a * 16 + unhex b) :: t)
        else none
      | _ => none
    else if c = '+' then (unescape rest).map (fun t => ' ' :: t)
    else (unescape rest).map (fun t => c :: t)

/-- Function `strings.Cut(s, sep)` for a one-byte separator: the text before the
first separator and the text after it (all of `s` and `""` when there is none). -/
def cut (sep : Char) : List Char → List Char × List Char
  | [] => ([], [])
  | c :: cs => if c = sep then ([], cs) else ((cut sep cs).1.cons c, (cut sep cs).2)

/-- The pieces `key, query, _ = strings.Cut(query, "&")` yields while the loop
`for query != ""` of `parseQuery` runs: the `&`-separated segments of the query. -/
def segments : List Char → List (List Char)
  | [] => []
  | c :: cs =>
    if c = '&' then [] :: segments cs
    else
      match segments cs with
      | [] => [[c]]
      | s :: ss => (c :: s) :: ss

/-- The errors of `url.ParseQuery`. -/
inductive QueryError where
  | invalidSemicolon
  | escapeError
  deriving DecidableEq, Repr

/-- One segment decoded: `none` when `parseQuery` skips it (it is empty),
`some (Except.error _)` when it is in error, `some (Except.ok (key, value))` when it contributes
a field. -/
def decodeSegment (seg : List Char) : Option (Except QueryError (String × String)) :=
  if seg.contains ';' then some (.error .invalidSemicolon)
  else if seg = [] then none
  else
    match unescape (cut '=' seg).1 with
    | none => some (.error .escapeError)
    | some key =>
      match unescape (cut '=' seg).2 with
      | none => some (.error .escapeError)
      | some value => some (.ok (String.mk key, String.mk value))

/-- One turn of the loop of `parseQuery`: the map and the error after the segment. -/
def parseStep (st : Values × Option QueryError) (seg : List Char) :
    Values × Option QueryError :=
  match decodeSegment seg with
  | none => st
  | some (.error .invalidSemicolon) => (st.1, some .invalidSemicolon)
  | some (.error .escapeError) => (st.1, if st.2 = none then some .escapeError else st.2)
  | some (.ok (key, value)) => (Values.Add st.1 key value, st.2)

/-- Function `url.ParseQuery`: the map of all well-formed fields and the error, if any
(the first escape error, or the semicolon error). -/
def ParseQuery (query : String) : Values × Option QueryError :=
  (segments query.toList).foldl parseStep ([], none)

/-- No key of the map holds an empty slice. -/
def Values.Full (m : Values) : Prop :=
  ∀ p ∈ m, p.2 ≠ []

/-- The fields of a query in the order they are written: the decoded `(key, value)` of
every segment that `parseQuery` neither skips nor rejects. -/
def fields (query : String) : List (String × String) :=
  (segments query.toList).filterMap (fun seg =>
    match decodeSegment seg with
    | some (.ok kv) => some kv
    | _ => none)

/-- The first value written for `key` among the fields, `""` when there is none. -/
def firstValue : List (String × String) → String → String
  | [], _ => ""
  | (k, v) :: fs, key => if k = key then v else firstValue fs key

/-- The map after the fields have been appended to it one by one. -/
def Values.AddAll (m : Values) (fs : List (String × String)) : Values :=
  fs.foldl (fun m kv => Values.Add m kv.1 kv.2) m

/-- The segment is one `parseQuery` rejects. -/
def badSegment (seg : List Char) : Bool :=
  match decodeSegment seg with
  | some (.error _) => true
  | _ => false

/-! ## `api/middleware.go`: `validateInitData` -/

/-- The error of line 94: the blob is not a query string. -/
def errMalformedInput : String := "неверный формат initData"

/-- The error of line 100: no `hash` field. -/
def errMissingSignature : String := "hash не найден в initData"

/-- The error of line 132: the signature does not match. -/
def errSignatureMismatch : String := "подпись не совпадает"

/-- The error of line 138: no `user` field. -/
def errMissingUser : String := "данные пользователя не найдены"

/-- The error of line 143: the `user` field does not decode; `detail` is the text of
the decoder's error. -/
def errMalformedUser (detail : String) : String :=
  "ошибка парсинга данных пользователя: " ++ detail

/-- The comparison `a <= b` of two Go strings, on their bytes: lexicographic, a proper
prefix first. -/
def lexLE : List Char → List Char → Bool
  | [], _ => true
  | _ :: _, [] => false
  | a :: as, b :: bs => if a = b then lexLE as bs else decide (a.toNat < b.toNat)

/-- The order `sort.Strings` sorts by. -/
def StringLE (a b : String) : Prop :=
  lexLE a.toList b.toList = true

instance : DecidableRel StringLE :=
  fun a b => inferInstanceAs (Decidable (lexLE a.toList b.toList = true))

/-- The call `sort.Strings(keys)`: the keys in ascending byte-wise order. -/
def sortStrings (keys : List String) : List String :=
  keys.insertionSort StringLE

/-- Lines 107-118 of `validateInitData`: from the keys in the order the map yields
them, the sorted `key=value` lines joined by a newline. -/
def dataCheckStringOf (values : Values) (keys : List String) : String :=
  "\n".intercalate ((sortStrings keys).map (fun k => k ++ "=" ++ Values.Get values k))

/-- The check string of a parsed blob from which `hash` has been removed. -/
def dataCheckString (values : Values) : String :=
  dataCheckStringOf values (Values.keys values)

/-- Lines 120-128 of `validateInitData`: the hex signature of a check string under
the key derived from the bot token. -/
def calculatedHash (E : Externals) (botToken checkString : String) : String :=
  E.hexEncode (E.hmacSHA256 (E.hmacSHA256 "WebAppData" botToken) checkString)

/-- Lines 97-146 of `validateInitData`, after the query has been parsed. -/
def validateValues (E : Externals) (parsed : Values) (botToken : String) :
    Except String TelegramUser :=
  let hash := Values.Get parsed "hash"
  if hash = "" then .error errMissingSignature
  else
    let values := Values.Del parsed "hash"
    if calculatedHash E botToken (dataCheckString values) ≠ hash then
      .error errSignatureMismatch
    else
      let userData := Values.Get values "user"
      if userData = "" then .error errMissingUser
      else
        match E.jsonUnmarshal userData with
        | .error err => .error (errMalformedUser err)
        | .ok user => .ok user

/-- Function `validateInitData` of `api/middleware.go`. -/
def validateInitData (E : Externals) (initData botToken : String) :
    Except String TelegramUser :=
  match ParseQuery initData with
  | (_, some _) => .error errMalformedInput
  | (parsed, none) => validateValues E parsed botToken

/-- One character of `s` has been replaced by a different one, giving `t`. -/
def OneCharChanged (s t : String) : Prop :=
  ∃ (a : List Char) (c d : Char) (b : List Char),
    c ≠ d ∧ s.toList = a ++ c :: b ∧ t.toList = a ++ d :: b

/-! ## `api/middleware.go`: `withAuth` -/

/-- Modelled from the spec: the record `Task` is declared outside the given sources;
these are the fields the handlers and keyboards read. -/
structure Task where
  ID : Int
  Title : String
  Description : String
  Status : String
  CreatedAt : Nat
  deriving DecidableEq, Repr

/-- The value handed to `writeJSON`: the `map[string]string` of an error answer, the
`map[string]bool` of a success, a list of tasks or one task. -/
inductive JSONData where
  | strings (entries : List (String × String))
  | bools (entries : List (String × Bool))
  | tasks (tasks : List Task)
  | task (task : Task)
  deriving DecidableEq, Repr

/-- One answer written to the `http.ResponseWriter`: status code and JSON body. -/
structure Response where
  status : Nat
  body : JSONData
  deriving DecidableEq, Repr

/-- The `http.ResponseWriter`, as the answers written to it so far. -/
abbrev ResponseWriter := List Response

/-- The part of `*http.Request` the middleware and the handlers read: the
`Authorization` header (`""` when absent), the value stored in the request context
under `userContextKey`, the path value `id` and the body. -/
structure Request where
  Authorization : String
  user : Option TelegramUser
  PathID : String
  Body : String
  deriving DecidableEq, Repr

/-- The type `http.HandlerFunc`. -/
abbrev HandlerFunc := ResponseWriter → Request → ResponseWriter

/-- Function `writeJSON` of `api/handlers.go`. -/
def writeJSON (w : ResponseWriter) (status : Nat) (data : JSONData) : ResponseWriter :=
  w ++ [⟨status, data⟩]

/-- If `pre` starts the text, the rest of the text. -/
def dropStart : List Char → List Char → Option (List Char)
  | [], s => some s
  | _ :: _, [] => none
  | p :: ps, c :: cs => if p = c then dropStart ps cs else none

/-- Function `strings.TrimPrefix`. -/
def TrimStart (s pre : String) : String :=
  match dropStart pre.toList s.toList with
  | some rest => String.mk rest
  | none => s

/-- The identity `withAuth` installs in development mode (line 43). -/
def devUser : TelegramUser := ⟨12345, "Developer", "", ""⟩

/-- Method `withAuth` of `api/middleware.go`.  `devMode` is the value of the
environment variable `DEV_MODE`, `botToken` is `s.botToken`; the writes to the log
are left out. -/
def withAuth (E : Externals) (devMode botToken : String) (next : HandlerFunc) : HandlerFunc :=
  fun w r =>
    if devMode = "true" then next w { r with user := some devUser }
    else
      let authHeader := r.Authorization
      if authHeader = "" then
        writeJSON w 401 (.strings [("error", "отсутствует заголовок Authorization")])
      else
        let initData := TrimStart authHeader "tma "
        match validateInitData E initData botToken with
        | .error err => writeJSON w 401 (.strings [("error", "неверная авторизация: " ++ err)])
        | .ok user => next w { r with user := some user }

/-! ## Data model of the bot -/

/-- The step constants of `bot/handlers.go`. -/
def StepNone : String := ""

/-- The step in which the bot waits for the title of the task. -/
def StepWaitTitle : String := "waiting_title"

/-- The step in which the bot waits for the description of the task. -/
def StepWaitDesc : String := "waiting_description"

/-- Modelled from the spec: the record `UserState` is declared outside the given
sources; it holds the dialog step and the staged title (fields `Step` and `TempTitle`
in `bot/handlers.go`). -/
structure UserState where
  Step : String
  TempTitle : String
  deriving DecidableEq, Repr

/-- What the handlers use and the given sources do not define: the five methods of the
task store over its state `σ`, the three status constants, the Mini App URL of the bot
and the rendering `CreatedAt.Format("02.01.2006 15:04")` of a creation time. -/
structure Env (σ : Type) where
  AddTask : σ → Int → String → String → σ × Task
  GetTasks : σ → Int → List Task
  GetTask : σ → Int → Int → Option Task
  UpdateStatus : σ → Int → Int → String → σ × Bool
  DeleteTask : σ → Int → Int → σ × Bool
  StatusNew : String
  StatusInProgress : String
  StatusDone : String
  webAppURL : String
  formatTime : Nat → String

/-- A call of a method of the task store, with its arguments. -/
inductive StoreCall where
  | AddTask (ownerID : Int) (title description : String)
  | GetTasks (ownerID : Int)
  | GetTask (ownerID : Int) (id : Int)
  | UpdateStatus (ownerID : Int) (id : Int) (status : String)
  | DeleteTask (ownerID : Int) (id : Int)
  deriving DecidableEq, Repr

/-- An inline button: its caption and the callback data it sends. -/
structure InlineButton where
  Text : String
  CallbackData : String
  deriving DecidableEq, Repr

/-- The type `webAppButton` of `bot/keyboards.go` (`WebApp` is the URL, if any). -/
structure webAppButton where
  Text : String
  WebApp : Option String
  deriving DecidableEq, Repr

/-- The value of `ReplyMarkup` of an outgoing message. -/
inductive Markup where
  | none
  | reply (Keyboard : List (List webAppButton)) (ResizeKeyboard : Bool)
  | inline (rows : List (List InlineButton))
  deriving DecidableEq, Repr

/-- The type `tgbotapi.MessageConfig`, as far as the handlers fill it. -/
structure MessageConfig where
  ChatID : Int
  Text : String
  ParseMode : String
  ReplyMarkup : Markup
  deriving DecidableEq, Repr

/-- The bot and what it has done: the dialog state of every user, the state of the task
store, and in order the store methods called, the messages handed to `b.api.Send` and
the callback queries answered. -/
structure Bot (σ : Type) where
  states : Int → UserState
  storage : σ
  calls : List StoreCall
  sent : List MessageConfig
  answered : List String

/-- Modelled from the spec: `getUserState` is defined outside the given sources; it
returns the shared state record of the user (created as step NONE with an empty staged
title on first access, which is how `states` holds a user never seen). -/
def getUserState {σ : Type} (b : Bot σ) (userID : Int) : UserState :=
  b.states userID

/-- A write through the pointer `getUserState` returned: the record of the user is
replaced, the others are kept. -/
def setUserState {σ : Type} (b : Bot σ) (userID : Int) (st : UserState) : Bot σ :=
  { b with states := fun u => if u = userID then st else b.states u }

/-- Modelled from the spec: `resetUserState` is defined outside the given sources; it
sets the state of the user to step NONE with an empty staged title. -/
def resetUserState {σ : Type} (b : Bot σ) (userID : Int) : Bot σ :=
  setUserState b userID ⟨StepNone, ""⟩

/-! ## `strconv` and `fmt` -/

/-- The value of a decimal digit, `none` for any other byte. -/
def digitValue (c : Char) : Option Nat :=
  if '0' ≤ c ∧ c ≤ '9' then some (c.toNat - '0'.toNat) else none

/-- The number written by a sequence of decimal digits, read after the value `acc`;
`none` when a byte is not a digit. -/
def parseDigits : Nat → List Char → Option Nat
  | acc, [] => some acc
  | acc, c :: cs =>
    match digitValue c with
    | some d => parseDigits (acc * 10 + d) cs
    | none => none

/-- Function `strconv.Atoi` for the 64-bit `int`: an optional sign and at least one
decimal digit, the value within the range of `int`; `none` is the error. -/
def Atoi (s : String) : Option Int :=
  let body : List Char → Option Nat := fun ds =>
    match ds with
    | [] => none
    | _ :: _ => parseDigits 0 ds
  match s.toList with
  | '-' :: ds =>
    match body ds with
    | some n => if n ≤ 2 ^ 63 then some (-(n : Int)) else none
    | none => none
  | '+' :: ds =>
    match body ds with
    | some n => if n < 2 ^ 63 then some (n : Int) else none
    | none => none
  | ds =>
    match body ds with
    | some n => if n < 2 ^ 63 then some (n : Int) else none
    | none => none

/-- The decimal digits of a natural number, most significant first; `fuel` bounds the
number of digits. -/
def decimalDigits : Nat → Nat → List Char → List Char
  | 0, _, acc => acc
  | fuel + 1, n, acc =>
    if n < 10 then Char.ofNat (48 + n) :: acc
    else decimalDigits fuel (n / 10) (Char.ofNat (48 + n % 10) :: acc)

/-- The verb `%d` of `fmt.Sprintf` for a non-negative number. -/
def formatNat (n : Nat) : String :=
  String.mk (decimalDigits (n + 1) n [])

/-- The verb `%d` of `fmt.Sprintf` for an `int`. -/
def formatInt (n : Int) : String :=
  if n < 0 then "-" ++ formatNat n.natAbs else formatNat n.natAbs

/-! ## `bot/keyboards.go` -/

/-- Function `mainMenuKeyboard`. -/
def mainMenuKeyboard (webAppURL : String) : Markup :=
  let rows : List (List webAppButton) := [[⟨"📋 Мои задачи", none⟩, ⟨"➕ Новая задача", none⟩]]
  let rows := if webAppURL ≠ "" then rows ++ [[⟨"📱 Открыть приложение", some webAppURL⟩]]
    else rows
  let rows := rows ++ [[⟨"ℹ️ О боте", none⟩]]
  .reply rows true

/-- Function `taskListKeyboard`: one row per task, sending `task_<ID>`. -/
def taskListKeyboard (tasks : List Task) : Markup :=
  .inline (tasks.map (fun task =>
    [⟨task.Status ++ " | " ++ task.Title, "task_" ++ formatInt task.ID⟩]))

/-- Function `taskActionsKeyboard`. -/
def taskActionsKeyboard (taskID : Int) : Markup :=
  .inline [[⟨"🔄 Сменить статус", "status_" ++ formatInt taskID⟩],
    [⟨"🗑 Удалить", "delete_" ++ formatInt taskID⟩],
    [⟨"⬅️ К списку задач", "back_to_list"⟩]]

/-- Function `statusKeyboard`. -/
def statusKeyboard {σ : Type} (env : Env σ) (taskID : Int) : Markup :=
  .inline [[⟨env.StatusNew, "setstatus_" ++ formatInt taskID ++ "_new"⟩],
    [⟨env.StatusInProgress, "setstatus_" ++ formatInt taskID ++ "_progress"⟩],
    [⟨env.StatusDone, "setstatus_" ++ formatInt taskID ++ "_done"⟩],
    [⟨"⬅️ Назад", "task_" ++ formatInt taskID⟩]]

/-- Function `skipKeyboard`. -/
def skipKeyboard : Markup :=
  .inline [[⟨"⏭ Пропустить", "skip"⟩]]

/-- Function `confirmDeleteKeyboard`. -/
def confirmDeleteKeyboard (taskID : Int) : Markup :=
  .inline [[⟨"✅ Да, удалить", "confirm_delete_" ++ formatInt taskID⟩,
    ⟨"❌ Отмена", "task_" ++ formatInt taskID⟩]]

/-! ## `bot/handlers.go` -/

/-- Method `send`: the message is handed to `b.api.Send` (a failure is only logged). -/
def send {σ : Type} (b : Bot σ) (msg : MessageConfig) : Bot σ :=
  { b with sent := b.sent ++ [msg] }

/-- Method `sendText`. -/
def sendText {σ : Type} (b : Bot σ) (chatID : Int) (text : String) : Bot σ :=
  send b ⟨chatID, text, "", .none⟩

/-- Method `sendWithInlineKeyboard`. -/
def sendWithInlineKeyboard {σ : Type} (b : Bot σ) (chatID : Int) (text : String)
    (keyboard : Markup) : Bot σ :=
  send b ⟨chatID, text, "", keyboard⟩

/-- Method `parseID`: the number after the prefix, 0 when it is not a number. -/
def parseID (data pre : String) : Int :=
  match Atoi (TrimStart data pre) with
  | some id => id
  | none => 0

/-- Function `escapeMarkdown`: a backslash before each special character. -/
def escapeMarkdown (text : String) : String :=
  String.mk (text.toList.flatMap (fun c =>
    if c ∈ ['_', '*', '[', ']', '(', ')', '~', '\x60', '>', '#', '+', '-', '=', '|',
        '\x7b', '\x7d', '.', '!'] then ['\\', c] else [c]))

/-- Method `handleStart`. -/
def handleStart {σ : Type} (env : Env σ) (b : Bot σ) (chatID : Int) : Bot σ :=
  send b ⟨chatID,
    "👋 *Привет\\!*\n\n" ++ "Я — твой персональный менеджер задач\\.\n" ++
      "Помогу организовать рабочий процесс\\.\n\n" ++ "Выбери действие в меню 👇",
    "MarkdownV2", mainMenuKeyboard env.webAppURL⟩

/-- Method `handleTaskList`. -/
def handleTaskList {σ : Type} (env : Env σ) (b : Bot σ) (chatID userID : Int) : Bot σ :=
  let tasks := env.GetTasks b.storage userID
  let b := { b with calls := b.calls ++ [.GetTasks userID] }
  if tasks.length = 0 then
    sendText b chatID "📭 У тебя пока нет задач.\nНажми «➕ Новая задача» чтобы создать первую!"
  else
    send b ⟨chatID,
      "📋 *Твои задачи* \\(" ++ formatNat tasks.length ++
        "\\):\n\nНажми на задачу для подробностей 👇",
      "MarkdownV2", taskListKeyboard tasks⟩

/-- Method `handleNewTask`. -/
def handleNewTask {σ : Type} (b : Bot σ) (chatID userID : Int) : Bot σ :=
  let state := getUserState b userID
  let state := { state with Step := StepWaitTitle }
  let state := { state with TempTitle := "" }
  let b := setUserState b userID state
  sendText b chatID "✏️ Введи название задачи:"

/-- Method `handleTitleInput`. -/
def handleTitleInput {σ : Type} (b : Bot σ) (chatID userID : Int) (title : String) : Bot σ :=
  let state := getUserState b userID
  let state := { state with TempTitle := title }
  let state := { state with Step := StepWaitDesc }
  let b := setUserState b userID state
  sendWithInlineKeyboard b chatID "📝 Теперь введи описание задачи (или нажми «Пропустить»):"
    skipKeyboard

/-- Method `finishTaskCreation`. -/
def finishTaskCreation {σ : Type} (env : Env σ) (b : Bot σ) (chatID userID : Int)
    (description : String) : Bot σ :=
  let state := getUserState b userID
  let title := state.TempTitle
  if title = "" then
    let b := sendText b chatID "⚠️ Что-то пошло не так. Попробуй создать задачу заново."
    resetUserState b userID
  else
    let r := env.AddTask b.storage userID title description
    let task := r.2
    let b := { b with storage := r.1, calls := b.calls ++ [.AddTask userID title description] }
    let b := resetUserState b userID
    let text := "✅ Задача создана!\n\n📌 " ++ task.Title ++ "\n📊 " ++ task.Status
    let text := if task.Description ≠ "" then
        "✅ Задача создана!\n\n📌 " ++ task.Title ++ "\n📝 " ++ task.Description ++ "\n📊 " ++
          task.Status
      else text
    sendText b chatID text

/-- Method `handleDescriptionInput`. -/
def handleDescriptionInput {σ : Type} (env : Env σ) (b : Bot σ) (chatID userID : Int)
    (description : String) : Bot σ :=
  finishTaskCreation env b chatID userID description

/-- Method `handleAbout`. -/
def handleAbout {σ : Type} (b : Bot σ) (chatID : Int) : Bot σ :=
  send b ⟨chatID,
    "ℹ️ *MTUCI Task Manager*\n\n" ++ "Версия: 0\\.1\\.0 \\(каркас\\)\n" ++ "📌 Возможности:\n" ++
      "• Создание задач\n" ++ "• Просмотр списка задач\n" ++ "• Смена статуса\n" ++
      "• Удаление задач\n\n" ++ "🚧 В разработке:\n" ++ "• Сохранение в PostgreSQL\n" ++
      "• Дедлайны и напоминания\n" ++ "• Приоритеты задач",
    "MarkdownV2", .none⟩

/-- Method `handleMessage`, for a message from `userID` in chat `chatID`. -/
def handleMessage {σ : Type} (env : Env σ) (b : Bot σ) (userID chatID : Int) (text : String) :
    Bot σ :=
  let state := getUserState b userID
  if state.Step = StepWaitTitle then handleTitleInput b chatID userID text
  else if state.Step = StepWaitDesc then handleDescriptionInput env b chatID userID text
  else if text = "/start" then handleStart env b chatID
  else if text = "📋 Мои задачи" then handleTaskList env b chatID userID
  else if text = "➕ Новая задача" then handleNewTask b chatID userID
  else if text = "ℹ️ О боте" then handleAbout b chatID
  else sendText b chatID "🤔 Не понимаю. Используй кнопки меню 👇"

/-- Method `showTaskDetail`. -/
def showTaskDetail {σ : Type} (env : Env σ) (b : Bot σ) (chatID userID taskID : Int) : Bot σ :=
  let found := env.GetTask b.storage userID taskID
  let b := { b with calls := b.calls ++ [.GetTask userID taskID] }
  match found with
  | none => sendText b chatID "⚠️ Задача не найдена."
  | some task =>
    let text := "📌 *" ++ escapeMarkdown task.Title ++ "*\n\n"
    let text := if task.Description ≠ "" then
        text ++ ("📝 " ++ escapeMarkdown task.Description ++ "\n\n")
      else text
    let text := text ++ ("📊 Статус: " ++ escapeMarkdown task.Status ++ "\n")
    let text := text ++ ("📅 Создана: " ++ escapeMarkdown (env.formatTime task.CreatedAt))
    send b ⟨chatID, text, "MarkdownV2", taskActionsKeyboard taskID⟩

/-- Method `showStatusSelection`. -/
def showStatusSelection {σ : Type} (env : Env σ) (b : Bot σ) (chatID taskID : Int) : Bot σ :=
  sendWithInlineKeyboard b chatID "Выбери новый статус:" (statusKeyboard env taskID)

/-- The call `strings.SplitN(data, "_", 3)` when it yields three parts: the text before
the first `_`, the text up to the second `_` and the rest; `none` when there are fewer
than three parts. -/
def splitN3 (data : String) : Option (String × String × String) :=
  let first := cut '_' data.toList
  if data.toList.contains '_' = false then none
  else if first.2.contains '_' = false then none
  else
    let second := cut '_' first.2
    some (String.mk first.1, String.mk second.1, String.mk second.2)

/-- Method `handleSetStatus`. -/
def handleSetStatus {σ : Type} (env : Env σ) (b : Bot σ) (chatID userID : Int) (data : String) :
    Bot σ :=
  match splitN3 data with
  | none => b
  | some (_, part1, part2) =>
    match Atoi part1 with
    | none => b
    | some taskID =>
      let status : Option String :=
        if part2 = "new" then some env.StatusNew
        else if part2 = "progress" then some env.StatusInProgress
        else if part2 = "done" then some env.StatusDone
        else none
      match status with
      | none => b
      | some status =>
        let r := env.UpdateStatus b.storage userID taskID status
        let b := { b with storage := r.1,
                          calls := b.calls ++ [.UpdateStatus userID taskID status] }
        if r.2 then
          let b := sendText b chatID ("✅ Статус изменён на: " ++ status)
          showTaskDetail env b chatID userID taskID
        else sendText b chatID "⚠️ Задача не найдена."

/-- Method `showDeleteConfirmation`. -/
def showDeleteConfirmation {σ : Type} (b : Bot σ) (chatID taskID : Int) : Bot σ :=
  sendWithInlineKeyboard b chatID "⚠️ Ты уверен, что хочешь удалить эту задачу?"
    (confirmDeleteKeyboard taskID)

/-- Method `handleDelete`. -/
def handleDelete {σ : Type} (env : Env σ) (b : Bot σ) (chatID userID taskID : Int) : Bot σ :=
  let r := env.DeleteTask b.storage userID taskID
  let b := { b with storage := r.1, calls := b.calls ++ [.DeleteTask userID taskID] }
  if r.2 then sendText b chatID "🗑 Задача удалена."
  else sendText b chatID "⚠️ Задача не найдена."

/-- The text starts with the prefix (`strings.HasPrefix`). -/
def HasStart (s pre : String) : Bool :=
  (dropStart pre.toList s.toList).isSome

/-- Method `handleCallback`, for the callback query `cbID` from `userID` in chat
`chatID` with the data `data`. -/
def handleCallback {σ : Type} (env : Env σ) (b : Bot σ) (cbID : String) (userID chatID : Int)
    (data : String) : Bot σ :=
  let b := { b with answered := b.answered ++ [cbID] }
  if data = "skip" then finishTaskCreation env b chatID userID ""
  else if HasStart data "task_" then showTaskDetail env b chatID userID (parseID data "task_")
  else if HasStart data "status_" then showStatusSelection env b chatID (parseID data "status_")
  else if HasStart data "setstatus_" then handleSetStatus env b chatID userID data
  else if HasStart data "delete_" then showDeleteConfirmation b chatID (parseID data "delete_")
  else if HasStart data "confirm_delete_" then
    handleDelete env b chatID userID (parseID data "confirm_delete_")
  else if data = "back_to_list" then handleTaskList env b chatID userID
  else b

/-- An inbound update: a text message or the press of an inline button. -/
inductive Update where
  | message (userID chatID : Int) (text : String)
  | callback (cbID : String) (userID chatID : Int) (data : String)
  deriving DecidableEq, Repr

/-- One update handled by `handleMessage` or `handleCallback`. -/
def handleUpdate {σ : Type} (env : Env σ) (b : Bot σ) : Update → Bot σ
  | .message userID chatID text => handleMessage env b userID chatID text
  | .callback cbID userID chatID data => handleCallback env b cbID userID chatID data

/-- The dialog steps of a user after each update of a sequence handled in order. -/
def stepsAfter {σ : Type} (env : Env σ) (userID : Int) : Bot σ → List Update → List String
  | _, [] => []
  | b, u :: us =>
    (getUserState (handleUpdate env b u) userID).Step ::
      stepsAfter env userID (handleUpdate env b u) us

/-- The bot after a sequence of updates handled in order. -/
def handleAll {σ : Type} (env : Env σ) (b : Bot σ) (us : List Update) : Bot σ :=
  us.foldl (handleUpdate env) b

/-- The three edges of the dialog named by the specification. -/
def SpecEdge (s t : String) : Prop :=
  (s = StepNone ∧ t = StepWaitTitle) ∨ (s = StepWaitTitle ∧ t = StepWaitDesc) ∨
    (s = StepWaitDesc ∧ t = StepNone)

/-! ## `api/handlers.go` -/

/-- The type `Server` of `api/handlers.go`, as far as the handlers change it: the state
of the task store it shares with the bot, and in order the store methods called. -/
structure Server (σ : Type) where
  storage : σ
  calls : List StoreCall
  deriving DecidableEq

/-- The calls `json.NewDecoder(r.Body).Decode(&req)` of the handlers, as library
functions: the body decoded into title and description (`handleCreateTask`) and into
the status (`handleUpdateStatus`); the error is the decoder's. -/
structure Decoders where
  decodeCreate : String → Except String (String × String)
  decodeStatus : String → Except String String

/-- Method `handleGetTasks`.  The result is `none` when the type assertion on the
request context panics, which is when no identity is stored there. -/
def handleGetTasks {σ : Type} (env : Env σ) (s : Server σ) (w : ResponseWriter) (r : Request) :
    Option (Server σ × ResponseWriter) :=
  match r.user with
  | none => none
  | some user =>
    let tasks := env.GetTasks s.storage user.ID
    let s := { s with calls := s.calls ++ [.GetTasks user.ID] }
    some (s, writeJSON w 200 (.tasks tasks))

/-- Method `handleCreateTask`. -/
def handleCreateTask {σ : Type} (env : Env σ) (D : Decoders) (s : Server σ) (w : ResponseWriter)
    (r : Request) : Option (Server σ × ResponseWriter) :=
  match r.user with
  | none => none
  | some user =>
    match D.decodeCreate r.Body with
    | .error _ => some (s, writeJSON w 400 (.strings [("error", "неверный формат запроса")]))
    | .ok (title, description) =>
      if title = "" then
        some (s, writeJSON w 400 (.strings [("error", "название задачи обязательно")]))
      else
        let res := env.AddTask s.storage user.ID title description
        let s := { s with storage := res.1,
                          calls := s.calls ++ [.AddTask user.ID title description] }
        some (s, writeJSON w 201 (.task res.2))

/-- Method `handleUpdateStatus`. -/
def handleUpdateStatus {σ : Type} (env : Env σ) (D : Decoders) (s : Server σ)
    (w : ResponseWriter) (r : Request) : Option (Server σ × ResponseWriter) :=
  match r.user with
  | none => none
  | some user =>
    match Atoi r.PathID with
    | none => some (s, writeJSON w 400 (.strings [("error", "неверный ID задачи")]))
    | some taskID =>
      match D.decodeStatus r.Body with
      | .error _ => some (s, writeJSON w 400 (.strings [("error", "неверный формат запроса")]))
      | .ok status =>
        let fullStatus : Option String :=
          if status = "new" then some env.StatusNew
          else if status = "progress" then some env.StatusInProgress
          else if status = "done" then some env.StatusDone
          else none
        match fullStatus with
        | none =>
          some (s, writeJSON w 400
            (.strings [("error", "неверный статус (допустимые: new, progress, done)")]))
        | some fullStatus =>
          let res := env.UpdateStatus s.storage user.ID taskID fullStatus
          let s := { s with storage := res.1,
                            calls := s.calls ++ [.UpdateStatus user.ID taskID fullStatus] }
          if res.2 then some (s, writeJSON w 200 (.bools [("ok", true)]))
          else some (s, writeJSON w 404 (.strings [("error", "задача не найдена")]))

/-- Method `handleDeleteTask`. -/
def handleDeleteTask {σ : Type} (env : Env σ) (s : Server σ) (w : ResponseWriter)
    (r : Request) : Option (Server σ × ResponseWriter) :=
  match r.user with
  | none => none
  | some user =>
    match Atoi r.PathID with
    | none => some (s, writeJSON w 400 (.strings [("error", "неверный ID задачи")]))
    | some taskID =>
      let res := env.DeleteTask s.storage user.ID taskID
      let s := { s with storage := res.1, calls := s.calls ++ [.DeleteTask user.ID taskID] }
      if res.2 then some (s, writeJSON w 200 (.bools [("ok", true)]))
      else some (s, writeJSON w 404 (.strings [("error", "задача не найдена")]))

/-- The type of the methods of `Server` that `Router` registers. -/
abbrev ApiHandler (σ : Type) := Server σ → ResponseWriter → Request → Option (Server σ × ResponseWriter)

/-- The routes `Router` wraps in `withAuth` (lines 26-29 of `api/router.go`), each with
its handler. -/
def authRoutes {σ : Type} (env : Env σ) (D : Decoders) : List (String × ApiHandler σ) :=
  [("GET /api/tasks", handleGetTasks env),
   ("POST /api/tasks", handleCreateTask env D),
   ("PATCH /api/tasks/\x7bid\x7d/status", handleUpdateStatus env D),
   ("DELETE /api/tasks/\x7bid\x7d", handleDeleteTask env)]

/-! ## What the claims speak of -/

/-- The owner a call of the task store is made for. -/
def StoreCall.ownerID : StoreCall → Int
  | .AddTask ownerID _ _ => ownerID
  | .GetTasks ownerID => ownerID
  | .GetTask ownerID _ => ownerID
  | .UpdateStatus ownerID _ _ => ownerID
  | .DeleteTask ownerID _ => ownerID

/-- The call is made for the given user, with a non-empty title when it is `AddTask`
and with one of the three status constants when it is `UpdateStatus`. -/
def GoodCall {σ : Type} (env : Env σ) (userID : Int) : StoreCall → Prop
  | .AddTask ownerID title _ => ownerID = userID ∧ title ≠ ""
  | .GetTasks ownerID => ownerID = userID
  | .GetTask ownerID _ => ownerID = userID
  | .UpdateStatus ownerID _ status =>
    ownerID = userID ∧
      (status = env.StatusNew ∨ status = env.StatusInProgress ∨ status = env.StatusDone)
  | .DeleteTask ownerID _ => ownerID = userID

/-- The user an update comes from (`msg.From.ID`, `cb.From.ID`). -/
def Update.sender : Update → Int
  | .message userID _ _ => userID
  | .callback _ userID _ _ => userID

/-- The status constant the handlers map a status key to, `none` for any other key. -/
def statusOfKey {σ : Type} (env : Env σ) (key : String) : Option String :=
  if key = "new" then some env.StatusNew
  else if key = "progress" then some env.StatusInProgress
  else if key = "done" then some env.StatusDone
  else none

/-- The callback data of the buttons of an inline keyboard, row by row. -/
def Markup.payloads : Markup → List String
  | .inline rows => rows.flatten.map (fun button => button.CallbackData)
  | _ => []

/-- The range of the 64-bit `int` of Go. -/
def IsGoInt (n : Int) : Prop :=
  -(2 ^ 63 : Int) ≤ n ∧ n < 2 ^ 63

/-- The calls `after` are the calls `before` followed by calls that are all made for the
given user, with a non-empty title and a status constant where they carry one. -/
def AddsGoodCalls {σ : Type} (env : Env σ) (userID : Int) (before after : List StoreCall) :
    Prop :=
  ∃ new, after = before ++ new ∧ ∀ c ∈ new, GoodCall env userID c

/-- Lines 321-328 of `handleSetStatus`: the status is written to the store and the
outcome is reported. -/
def applyStatus {σ : Type} (env : Env σ) (b : Bot σ) (chatID userID taskID : Int)
    (status : String) : Bot σ :=
  if (env.UpdateStatus b.storage userID taskID status).2 then
    showTaskDetail env
      (sendText
        { b with storage := (env.UpdateStatus b.storage userID taskID status).1,
                 calls := b.calls ++ [.UpdateStatus userID taskID status] }
        chatID ("✅ Статус изменён на: " ++ status))
      chatID userID taskID
  else
    sendText
      { b with storage := (env.UpdateStatus b.storage userID taskID status).1,
               calls := b.calls ++ [.UpdateStatus userID taskID status] }
      chatID "⚠️ Задача не найдена."

/-- Lines 121-127 of `handleUpdateStatus`: the status is written to the store and the
outcome is answered. -/
def answerStatus {σ : Type} (env : Env σ) (s : Server σ) (w : ResponseWriter)
    (userID taskID : Int) (status : String) : Server σ × ResponseWriter :=
  if (env.UpdateStatus s.storage userID taskID status).2 then
    (⟨(env.UpdateStatus s.storage userID taskID status).1,
        s.calls ++ [.UpdateStatus userID taskID status]⟩,
      writeJSON w 200 (.bools [("ok", true)]))
  else
    (⟨(env.UpdateStatus s.storage userID taskID status).1,
        s.calls ++ [.UpdateStatus userID taskID status]⟩,
      writeJSON w 404 (.strings [("error", "задача не найдена")]))

/-- Lines 168-173 of `finishTaskCreation`: the confirmation text for the task the
store returned. -/
def createdText (task : Task) : String :=
  if task.Description ≠ "" then
    "✅ Задача создана!\n\n📌 " ++ task.Title ++ "\n📝 " ++ task.Description ++ "\n📊 " ++
      task.Status
  else "✅ Задача создана!\n\n📌 " ++ task.Title ++ "\n📊 " ++ task.Status

/-! ## A concrete instance of the library functions, for the examples -/

/-- The table `hextable` of `encoding/hex`. -/
def hexDigit (n : Nat) : Char :=
  "0123456789abcdef".toList.getD n '0'

/-- Function `hex.EncodeToString`: two lowercase hex digits per byte. -/
def hexEncodeToString (src : String) : String :=
  String.mk (src.toList.flatMap (fun c => [hexDigit (c.toNat / 16 % 16), hexDigit (c.toNat % 16)]))

/-- A stand-in for HMAC-SHA256 in the examples: 32 equal bytes, the sum of the bytes
of key and message modulo 256.  Nothing is proved from its shape. -/
def sampleMac (key message : String) : String :=
  String.mk (List.replicate 32
    (Char.ofNat (((key.toList ++ message.toList).map Char.toNat).sum % 256)))

/-- A stand-in for `json.Unmarshal` in the examples: it decodes the two documents the
examples use and rejects every other text. -/
def sampleUnmarshal (data : String) : Except String TelegramUser :=
  if data = "\x7b\"id\":42,\"first_name\":\"A\"\x7d" then .ok ⟨42, "A", "", ""⟩
  else if data = "\x7b\"id\":7\x7d" then .ok ⟨7, "", "", ""⟩
  else .error "unexpected end of JSON input"

/-- The instance of the library functions used by the examples. -/
def sampleExternals : Externals where
  hmacSHA256 := sampleMac
  hexEncode := hexEncodeToString
  jsonUnmarshal := sampleUnmarshal
  signature_nonempty := by
    intro key message h
    have h2 := congrArg String.length h
    simp [hexEncodeToString, sampleMac, List.replicate] at h2

/-- A handler for the examples: it answers 200 with the first name of the identity it
finds in the request context, and 500 when there is none. -/
def probeHandler : HandlerFunc :=
  fun w r =>
    match r.user with
    | some u => writeJSON w 200 (.strings [("first_name", u.FirstName)])
    | none => writeJSON w 500 (.strings [])

/-- Modelled from the spec: the task store is defined outside the given sources.  Its
state for the examples: the tasks with their owners in insertion order, and the counter
the IDs are taken from. -/
structure SampleStore where
  tasks : List (Int × Task)
  counter : Int
  deriving DecidableEq, Repr

/-- Modelled from the spec: the five operations of the task store of section 4.1, with
stand-ins for the status constants, the URL and the time format; used by the examples
only. -/
def sampleEnv : Env SampleStore where
  AddTask := fun st ownerID title description =>
    let task : Task := ⟨st.counter + 1, title, description, "NEW", 0⟩
    (⟨st.tasks ++ [(ownerID, task)], st.counter + 1⟩, task)
  GetTasks := fun st ownerID =>
    (st.tasks.filter (fun p => p.1 = ownerID)).map Prod.snd
  GetTask := fun st ownerID id =>
    (st.tasks.find? (fun p => p.1 = ownerID ∧ p.2.ID = id)).map Prod.snd
  UpdateStatus := fun st ownerID id status =>
    (⟨st.tasks.map (fun p =>
        if p.1 = ownerID ∧ p.2.ID = id then (p.1, { p.2 with Status := status }) else p),
      st.counter⟩,
     st.tasks.any (fun p => p.1 = ownerID ∧ p.2.ID = id))
  DeleteTask := fun st ownerID id =>
    (⟨st.tasks.filter (fun p => ¬ (p.1 = ownerID ∧ p.2.ID = id)), st.counter⟩,
     st.tasks.any (fun p => p.1 = ownerID ∧ p.2.ID = id))
  StatusNew := "NEW"
  StatusInProgress := "IN_PROGRESS"
  StatusDone := "DONE"
  webAppURL := ""
  formatTime := fun _ => "01.01.1970 00:00"

/-- A bot that has seen nobody, for the examples: every user at step NONE with an empty
staged title, an empty store, nothing sent. -/
def newBot : Bot SampleStore :=
  ⟨fun _ => ⟨StepNone, ""⟩, ⟨[], 0⟩, [], [], []⟩

/-- Stand-ins for the body decoders in the examples: they decode the documents the
examples use and reject every other text. -/
def sampleDecoders : Decoders where
  decodeCreate := fun body =>
    if body = "\x7b\"title\":\"Buy milk\"\x7d" then .ok ("Buy milk", "")
    else if body = "\x7b\"title\":\"\"\x7d" then .ok ("", "")
    else if body = "\x7b\x7d" then .ok ("", "")
    else .error "unexpected end of JSON input"
  decodeStatus := fun body =>
    if body = "\x7b\"status\":\"new\"\x7d" then .ok "new"
    else if body = "\x7b\"status\":\"progress\"\x7d" then .ok "progress"
    else if body = "\x7b\"status\":\"done\"\x7d" then .ok "done"
    else if body = "\x7b\"status\":\"archived\"\x7d" then .ok "archived"
    else if body = "\x7b\x7d" then .ok ""
    else .error "unexpected end of JSON input"

/-- A server that has handled nothing, for the examples. -/
def newServer : Server SampleStore :=
  ⟨⟨[], 0⟩, []⟩

/-! ## The order of `sort.Strings` -/

theorem lexLE_iff_not_lex : ∀ (a b : List Char), lexLE a b = true ↔ ¬ List.Lex (· < ·) b a
  | [], b => by simp [lexLE, List.Lex.not_nil_right]
  | a :: as, [] => by simp [lexLE]; exact List.Lex.nil
  | a :: as, b :: bs => by
    by_cases h : a = b
    · subst h
      simp only [lexLE, if_true, List.Lex.cons_iff]
      exact lexLE_iff_not_lex as bs
    · simp only [lexLE, if_neg h, decide_eq_true_eq]
      constructor
      · intro hlt hlex
        cases hlex with
        | cons h' => exact h rfl
        | rel h' =>
          have : b.toNat < a.toNat := h'
          omega
      · intro hn
        by_contra hge
        apply hn
        apply List.Lex.rel
        have hne : a.toNat ≠ b.toNat := fun e => h (Char.ext (by
          have := congrArg UInt32.ofNat e
          exact UInt32.ext (by simpa [Char.toNat] using e)))
        show b.toNat < a.toNat
        omega

/-- The order `sort.Strings` sorts by is the order of `String`. -/
theorem StringLE_iff (a b : String) : StringLE a b ↔ a ≤ b := by
  rw [String.le_iff_toList_le, ← not_lt]
  exact lexLE_iff_not_lex _ _

instance : IsTotal String StringLE :=
  ⟨fun a b => by simpa only [StringLE_iff] using le_total a b⟩

instance : IsTrans String StringLE :=
  ⟨fun a b c => by simpa only [StringLE_iff] using le_trans⟩

instance : IsAntisymm String StringLE :=
  ⟨fun a b => by simpa only [StringLE_iff] using le_antisymm⟩

theorem sortStrings_perm (keys : List String) : (sortStrings keys).Perm keys :=
  List.perm_insertionSort StringLE keys

theorem sortStrings_sorted (keys : List String) : (sortStrings keys).Sorted (· ≤ ·) :=
  (List.sorted_insertionSort StringLE keys).imp (fun h => (StringLE_iff _ _).1 h)

theorem sortStrings_eq_of_perm {keys keys' : List String} (h : keys.Perm keys') :
    sortStrings keys = sortStrings keys' :=
  List.eq_of_perm_of_sorted
    (((sortStrings_perm keys).trans h).trans (sortStrings_perm keys').symm)
    (List.sorted_insertionSort StringLE keys) (List.sorted_insertionSort StringLE keys')

theorem sortStrings_strict {keys : List String} (h : keys.Nodup) :
    (sortStrings keys).Sorted (· < ·) :=
  (List.Pairwise.and (sortStrings_sorted keys)
    ((sortStrings_perm keys).nodup_iff.2 h)).imp (fun h => lt_of_le_of_ne h.1 h.2)

theorem mem_sortStrings {keys : List String} {k : String} : k ∈ sortStrings keys ↔ k ∈ keys :=
  (sortStrings_perm keys).mem_iff

/-! ## Facts about `url.Values` -/

theorem Values.Get_nil (k : String) : Values.Get [] k = "" := rfl

theorem Values.Get_cons (k' : String) (vs : List String) (m : Values) (k : String) :
    Values.Get ((k', vs) :: m) k = if k = k' then vs.headD "" else Values.Get m k := by
  unfold Values.Get
  by_cases h : k = k'
  · subst h
    cases vs <;> simp [List.lookup]
  · have : (k == k') = false := by simpa using h
    simp [List.lookup, this, h]

theorem Values.Get_of_not_mem {m : Values} {k : String} (h : k ∉ Values.keys m) :
    Values.Get m k = "" := by
  induction m with
  | nil => rfl
  | cons p m ih =>
    obtain ⟨k', vs⟩ := p
    simp only [Values.keys, List.map_cons, List.mem_cons, not_or] at h
    rw [Values.Get_cons, if_neg h.1]
    exact ih h.2

theorem Values.keys_Add (m : Values) (k v : String) :
    Values.keys (Values.Add m k v) = if k ∈ Values.keys m then Values.keys m else Values.keys m ++ [k] := by
  induction m with
  | nil => simp [Values.Add, Values.keys]
  | cons p m ih =>
    obtain ⟨k', vs⟩ := p
    by_cases h : k' = k
    · subst h
      simp [Values.Add, Values.keys]
    · have h' : ¬ k = k' := fun e => h e.symm
      simp only [Values.keys] at ih
      simp only [Values.Add, if_neg h, Values.keys, List.map_cons, List.mem_cons, h', false_or, ih]
      split <;> simp

theorem Values.Full_Add {m : Values} (hm : Values.Full m) (k v : String) :
    Values.Full (Values.Add m k v) := by
  induction m with
  | nil => intro p hp; simp [Values.Add] at hp; subst hp; simp
  | cons p m ih =>
    obtain ⟨k', vs⟩ := p
    have hm' : Values.Full m := fun q hq => hm q (List.mem_cons_of_mem _ hq)
    by_cases h : k' = k
    · intro q hq
      simp only [Values.Add, if_pos h, List.mem_cons] at hq
      rcases hq with rfl | hq
      · simp
      · exact hm' q hq
    · intro q hq
      simp only [Values.Add, if_neg h, List.mem_cons] at hq
      rcases hq with rfl | hq
      · exact hm _ (List.mem_cons_self _ _)
      · exact ih hm' q hq

theorem Values.Get_Add {m : Values} (hm : Values.Full m) (k v k' : String) :
    Values.Get (Values.Add m k v) k' =
      if k' = k ∧ k ∉ Values.keys m then v else Values.Get m k' := by
  induction m with
  | nil =>
    by_cases h : k' = k <;> simp [Values.Add, Values.Get_cons, Values.keys, h, Values.Get_nil]
  | cons p m ih =>
    obtain ⟨k0, vs⟩ := p
    have hm' : Values.Full m := fun q hq => hm q (List.mem_cons_of_mem _ hq)
    have hvs : vs ≠ [] := hm (k0, vs) (List.mem_cons_self _ _)
    by_cases h : k0 = k
    · subst h
      simp only [Values.Add, if_true, Values.Get_cons, Values.keys, List.map_cons,
        List.mem_cons, true_or, not_true_eq_false, and_false, if_false]
      cases vs with
      | nil => exact absurd rfl hvs
      | cons x xs => simp
    · have h' : ¬ k = k0 := fun e => h e.symm
      simp only [Values.Add, if_neg h, Values.Get_cons, ih hm', Values.keys, List.map_cons,
        List.mem_cons, h', false_or]
      by_cases e : k' = k0
      · have : ¬ k' = k := fun e2 => h (e.symm.trans e2)
        simp [e, this, h]
      · simp [e]

theorem Values.keys_Del (m : Values) (k : String) :
    Values.keys (Values.Del m k) = (Values.keys m).filter (fun x => x ≠ k) := by
  unfold Values.keys Values.Del
  rw [List.filter_map]
  rfl

theorem Values.Get_Del (m : Values) (k k' : String) :
    Values.Get (Values.Del m k) k' = if k' = k then "" else Values.Get m k' := by
  induction m with
  | nil => simp [Values.Del, Values.Get_nil]
  | cons p m ih =>
    obtain ⟨k0, vs⟩ := p
    simp only [Values.Del] at ih
    by_cases h : k0 = k
    · subst h
      simp only [Values.Del, List.filter_cons, ne_eq, not_true_eq_false, decide_False,
        Bool.false_eq_true, if_false, ih, Values.Get_cons]
      by_cases e : k' = k0 <;> simp [e]
    · simp only [Values.Del, List.filter_cons, ne_eq, h, not_false_eq_true, decide_True,
        if_true, Values.Get_cons, ih]
      by_cases e : k' = k0
      · have : ¬ k' = k := fun e2 => h (e.symm.trans e2)
        simp [e, this, h]
      · simp [e]

/-! ## Facts about `url.ParseQuery` -/

theorem Values.AddAll_cons (m : Values) (kv : String × String) (fs : List (String × String)) :
    Values.AddAll m (kv :: fs) = Values.AddAll (Values.Add m kv.1 kv.2) fs := rfl

theorem Values.Full_AddAll {m : Values} (hm : Values.Full m) (fs : List (String × String)) :
    Values.Full (Values.AddAll m fs) := by
  induction fs generalizing m with
  | nil => exact hm
  | cons kv fs ih => exact ih (Values.Full_Add hm _ _)

theorem Values.mem_keys_AddAll (m : Values) (fs : List (String × String)) (k : String) :
    k ∈ Values.keys (Values.AddAll m fs) ↔ k ∈ Values.keys m ∨ k ∈ fs.map Prod.fst := by
  induction fs generalizing m with
  | nil => simp [Values.AddAll]
  | cons kv fs ih =>
    rw [Values.AddAll_cons, ih, Values.keys_Add]
    by_cases h : kv.1 ∈ Values.keys m
    · simp only [if_pos h, List.map_cons, List.mem_cons]
      constructor
      · rintro (h1 | h1)
        · exact Or.inl h1
        · exact Or.inr (Or.inr h1)
      · rintro (h1 | h1 | h1)
        · exact Or.inl h1
        · exact Or.inl (h1 ▸ h)
        · exact Or.inr h1
    · simp only [if_neg h, List.mem_append, List.mem_singleton, List.map_cons, List.mem_cons]
      tauto

theorem Values.nodup_keys_Add {m : Values} (hm : (Values.keys m).Nodup) (k v : String) :
    (Values.keys (Values.Add m k v)).Nodup := by
  rw [Values.keys_Add]
  by_cases h : k ∈ Values.keys m
  · simpa [h] using hm
  · rw [if_neg h]
    exact List.Nodup.append hm (List.nodup_singleton k) (by simpa using h)

theorem Values.nodup_keys_AddAll {m : Values} (hm : (Values.keys m).Nodup)
    (fs : List (String × String)) : (Values.keys (Values.AddAll m fs)).Nodup := by
  induction fs generalizing m with
  | nil => exact hm
  | cons kv fs ih => exact ih (Values.nodup_keys_Add hm _ _)

theorem Values.Get_AddAll {m : Values} (hm : Values.Full m) (fs : List (String × String))
    (k : String) :
    Values.Get (Values.AddAll m fs) k =
      if k ∈ Values.keys m then Values.Get m k else firstValue fs k := by
  induction fs generalizing m with
  | nil =>
    by_cases h : k ∈ Values.keys m
    · simp [Values.AddAll, h]
    · simp [Values.AddAll, h, firstValue, Values.Get_of_not_mem h]
  | cons kv fs ih =>
    obtain ⟨k0, v0⟩ := kv
    rw [Values.AddAll_cons, ih (Values.Full_Add hm _ _), Values.keys_Add, Values.Get_Add hm]
    simp only [firstValue]
    by_cases h0 : k0 ∈ Values.keys m
    · simp only [if_pos h0, h0, not_true_eq_false, and_false, if_false]
      by_cases hk : k ∈ Values.keys m
      · simp [hk]
      · have : ¬ k0 = k := fun e => hk (e ▸ h0)
        simp [hk, this]
    · simp only [if_neg h0, List.mem_append, List.mem_singleton, h0, not_false_eq_true,
        and_true]
      by_cases hk : k ∈ Values.keys m
      · have : ¬ k = k0 := fun e => h0 (e ▸ hk)
        simp [hk, this]
      · by_cases e : k = k0
        · simp [e, h0]
        · have : ¬ k0 = k := fun e2 => e e2.symm
          simp [hk, e, this]

theorem foldl_parseStep_fst (segs : List (List Char)) (st : Values × Option QueryError) :
    (segs.foldl parseStep st).1 =
      Values.AddAll st.1 (segs.filterMap (fun seg =>
        match decodeSegment seg with
        | some (.ok kv) => some kv
        | _ => none)) := by
  induction segs generalizing st with
  | nil => rfl
  | cons seg segs ih =>
    rw [List.foldl_cons, ih]
    unfold parseStep
    rcases hd : decodeSegment seg with _ | ⟨e | ⟨k, v⟩⟩
    · simp [List.filterMap_cons, hd]
    · cases e <;> simp [List.filterMap_cons, hd]
    · simp [List.filterMap_cons, hd, Values.AddAll_cons]

theorem foldl_parseStep_snd (segs : List (List Char)) (st : Values × Option QueryError) :
    (segs.foldl parseStep st).2 = none ↔ st.2 = none ∧ ∀ seg ∈ segs, badSegment seg = false := by
  induction segs generalizing st with
  | nil => simp
  | cons seg segs ih =>
    rw [List.foldl_cons, ih]
    unfold parseStep badSegment
    rcases hd : decodeSegment seg with _ | ⟨e | ⟨k, v⟩⟩
    · simp [hd]
    · cases e
      · simp [hd]
      · cases h2 : st.2 <;> simp [hd, badSegment, h2]
    · simp [hd]

/-- The map `url.ParseQuery` returns holds the fields of the query, appended in the
order they are written. -/
theorem ParseQuery_fst (query : String) :
    (ParseQuery query).1 = Values.AddAll [] (fields query) :=
  foldl_parseStep_fst _ _

/-- The query parses when none of its segments is rejected. -/
theorem ParseQuery_snd (query : String) :
    (ParseQuery query).2 = none ↔ ∀ seg ∈ segments query.toList, badSegment seg = false := by
  unfold ParseQuery
  rw [foldl_parseStep_snd]
  simp

theorem ParseQuery_Get (query key : String) :
    Values.Get (ParseQuery query).1 key = firstValue (fields query) key := by
  rw [ParseQuery_fst, Values.Get_AddAll (fun p hp => by simp at hp)]
  simp [Values.keys]

theorem ParseQuery_mem_keys (query key : String) :
    key ∈ Values.keys (ParseQuery query).1 ↔ key ∈ (fields query).map Prod.fst := by
  rw [ParseQuery_fst, Values.mem_keys_AddAll]
  simp [Values.keys]

theorem ParseQuery_nodup_keys (query : String) : (Values.keys (ParseQuery query).1).Nodup := by
  rw [ParseQuery_fst]
  exact Values.nodup_keys_AddAll (by simp [Values.keys]) _

/-! ## `validateInitData`: acceptance -/

/-- The `user` field is read after `hash` has been deleted, which does not change it. -/
theorem Get_user_Del_hash (parsed : Values) :
    Values.Get (Values.Del parsed "hash") "user" = Values.Get parsed "user" := by
  rw [Values.Get_Del, if_neg (by decide)]

theorem validateInitData_eq (E : Externals) (initData botToken : String) :
    validateInitData E initData botToken =
      if (ParseQuery initData).2 = none then validateValues E (ParseQuery initData).1 botToken
      else .error errMalformedInput := by
  unfold validateInitData
  rcases ParseQuery initData with ⟨parsed, _ | e⟩ <;> simp

theorem validateValues_ok_iff (E : Externals) (parsed : Values) (botToken : String)
    (user : TelegramUser) :
    validateValues E parsed botToken = .ok user ↔
      Values.Get parsed "hash" ≠ "" ∧
      Values.Get parsed "hash" =
        calculatedHash E botToken (dataCheckString (Values.Del parsed "hash")) ∧
      Values.Get parsed "user" ≠ "" ∧
      E.jsonUnmarshal (Values.Get parsed "user") = .ok user := by
  unfold validateValues
  simp only [Get_user_Del_hash]
  by_cases h1 : Values.Get parsed "hash" = ""
  · simp [h1]
  by_cases h2 : calculatedHash E botToken (dataCheckString (Values.Del parsed "hash")) =
      Values.Get parsed "hash"
  swap
  · have h2' : ¬ Values.Get parsed "hash" =
        calculatedHash E botToken (dataCheckString (Values.Del parsed "hash")) :=
      fun e => h2 e.symm
    simp [h1, h2, h2']
  by_cases h3 : Values.Get parsed "user" = ""
  · simp [h1, h2, h3]
  rcases h4 : E.jsonUnmarshal (Values.Get parsed "user") with err | u
  · simp [h1, h2, h3, h4]
  · simp [h1, h2, h3, h4]

/-- C1: `validateInitData` returns an identity exactly when the blob parses as a query
string, its `hash` field is non-empty and equal to the lowercase hex encoding of
HMAC-SHA256 (keyed by HMAC-SHA256 of the secret under the key "WebAppData") of the
check string of the blob, the `user` field is non-empty, and the `user` field
JSON-decodes; the identity returned is then the decoded `user` field. -/
theorem validateInitData_ok_iff (E : Externals) (initData botToken : String)
    (user : TelegramUser) :
    validateInitData E initData botToken = .ok user ↔
      (ParseQuery initData).2 = none ∧
      Values.Get (ParseQuery initData).1 "hash" ≠ "" ∧
      Values.Get (ParseQuery initData).1 "hash" =
        E.hexEncode (E.hmacSHA256 (E.hmacSHA256 "WebAppData" botToken)
          (dataCheckString (Values.Del (ParseQuery initData).1 "hash"))) ∧
      Values.Get (ParseQuery initData).1 "user" ≠ "" ∧
      E.jsonUnmarshal (Values.Get (ParseQuery initData).1 "user") = .ok user := by
  rw [validateInitData_eq]
  by_cases h : (ParseQuery initData).2 = none
  · rw [if_pos h, validateValues_ok_iff]
    simp [h, calculatedHash]
  · simp [h]

/-- The example of the specification: the blob that signs `auth_date=1700000000` and
`user={"id":42,"first_name":"A"}` is accepted with ID 42 and first name "A" (here with
the stand-ins for the MAC and the decoder). -/
theorem validateInitData_signed_example :
    validateInitData sampleExternals
      ("auth_date=1700000000&user=%7B%22id%22%3A42%2C%22first_name%22%3A%22A%22%7D&hash="
        ++ calculatedHash sampleExternals "TOKEN"
            "auth_date=1700000000\nuser=\x7b\"id\":42,\"first_name\":\"A\"\x7d")
      "TOKEN" = .ok ⟨42, "A", "", ""⟩ := by
  decide

/-! ## The check string depends on the keys and on the first values only -/

theorem firstValue_append (a b : List (String × String)) (k : String) :
    firstValue (a ++ b) k = if k ∈ a.map Prod.fst then firstValue a k else firstValue b k := by
  induction a with
  | nil => simp
  | cons p a ih =>
    obtain ⟨k0, v0⟩ := p
    by_cases h : k0 = k
    · simp [firstValue, h]
    · have h' : ¬ k = k0 := fun e => h e.symm
      by_cases hm : k ∈ List.map Prod.fst a
      · have hm2 : k ∈ List.map Prod.fst ((k0, v0) :: a) := List.mem_cons_of_mem _ hm
        rw [if_pos hm2]
        show (if k0 = k then v0 else firstValue (a ++ b) k) =
          if k0 = k then v0 else firstValue a k
        rw [if_neg h, if_neg h, ih, if_pos hm]
      · have hm2 : k ∉ List.map Prod.fst ((k0, v0) :: a) := by
          simpa [h'] using hm
        rw [if_neg hm2]
        show (if k0 = k then v0 else firstValue (a ++ b) k) = firstValue b k
        rw [if_neg h, ih, if_neg hm]

theorem firstValue_of_not_mem {fs : List (String × String)} {k : String}
    (h : k ∉ fs.map Prod.fst) : firstValue fs k = "" := by
  induction fs with
  | nil => rfl
  | cons p fs ih =>
    obtain ⟨k0, v0⟩ := p
    simp only [List.map_cons, List.mem_cons, not_or] at h
    have h' : ¬ k0 = k := fun e => h.1 e.symm
    simp only [firstValue, if_neg h']
    exact ih h.2

theorem firstValue_of_mem {fs : List (String × String)} (hnd : (fs.map Prod.fst).Nodup)
    {k v : String} (h : (k, v) ∈ fs) : firstValue fs k = v := by
  induction fs with
  | nil => simp at h
  | cons p fs ih =>
    obtain ⟨k0, v0⟩ := p
    simp only [List.map_cons, List.nodup_cons] at hnd
    simp only [List.mem_cons, Prod.mk.injEq] at h
    rcases h with ⟨rfl, rfl⟩ | h
    · simp [firstValue]
    · have h' : ¬ k0 = k := fun e => hnd.1 (e ▸ List.mem_map_of_mem Prod.fst h)
      simp only [firstValue, if_neg h']
      exact ih hnd.2 h

theorem firstValue_perm {fs fs' : List (String × String)} (hp : fs.Perm fs')
    (hnd : (fs.map Prod.fst).Nodup) (k : String) : firstValue fs k = firstValue fs' k := by
  have hnd' : (fs'.map Prod.fst).Nodup := (hp.map Prod.fst).nodup_iff.1 hnd
  by_cases hk : k ∈ fs.map Prod.fst
  · obtain ⟨⟨k1, v⟩, hmem, rfl⟩ := List.mem_map.1 hk
    rw [firstValue_of_mem hnd hmem, firstValue_of_mem hnd' (hp.mem_iff.1 hmem)]
  · have hk' : k ∉ fs'.map Prod.fst := fun h => hk ((hp.map Prod.fst).mem_iff.2 h)
    rw [firstValue_of_not_mem hk, firstValue_of_not_mem hk']

theorem Values.keys_AddAll_congr (m : Values) {fs fs' : List (String × String)}
    (h : fs.map Prod.fst = fs'.map Prod.fst) :
    Values.keys (Values.AddAll m fs) = Values.keys (Values.AddAll m fs') := by
  have key : ∀ (fs : List (String × String)) (m m' : Values) (ks : List String),
      Values.keys m = Values.keys m' → fs.map Prod.fst = ks →
      ∀ fs' : List (String × String), fs'.map Prod.fst = ks →
      Values.keys (Values.AddAll m fs) = Values.keys (Values.AddAll m' fs') := by
    intro fs
    induction fs with
    | nil =>
      intro m m' ks hm h1 fs' h2
      subst h1
      simp only [List.map_nil, List.map_eq_nil_iff] at h2
      subst h2
      exact hm
    | cons p fs ih =>
      intro m m' ks hm h1 fs' h2
      subst h1
      cases fs' with
      | nil => simp at h2
      | cons q fs' =>
        simp only [List.map_cons, List.cons.injEq] at h2
        rw [Values.AddAll_cons, Values.AddAll_cons]
        refine ih _ _ _ ?_ rfl fs' h2.2
        rw [Values.keys_Add, Values.keys_Add, hm, h2.1]
  exact key fs m m _ rfl h fs' rfl

theorem dataCheckStringOf_congr {v v' : Values} {keys keys' : List String}
    (hk : keys.Perm keys') (hg : ∀ k ∈ keys, Values.Get v k = Values.Get v' k) :
    dataCheckStringOf v keys = dataCheckStringOf v' keys' := by
  unfold dataCheckStringOf
  rw [sortStrings_eq_of_perm hk]
  congr 1
  apply List.map_congr_left
  intro k hkm
  rw [hg k (hk.mem_iff.2 (mem_sortStrings.1 hkm))]

/-- Two parsed maps with the same keys (in any enumeration order) and the same first
values, `hash` aside, have the same check string. -/
theorem dataCheckString_Del_congr {p p' : Values}
    (hk : (Values.keys p).Perm (Values.keys p'))
    (hg : ∀ k, k ≠ "hash" → Values.Get p k = Values.Get p' k) :
    dataCheckString (Values.Del p "hash") = dataCheckString (Values.Del p' "hash") := by
  unfold dataCheckString
  apply dataCheckStringOf_congr
  · rw [Values.keys_Del, Values.keys_Del]
    exact hk.filter _
  · intro k _
    rw [Values.Get_Del, Values.Get_Del]
    by_cases h : k = "hash"
    · simp [h]
    · simp [h, hg k h]

/-- What `validateValues` reads of the parsed map: the `hash` value, the check string
and the `user` value. -/
theorem validateValues_congr (E : Externals) {p p' : Values} (botToken : String)
    (hh : Values.Get p "hash" = Values.Get p' "hash")
    (hc : dataCheckString (Values.Del p "hash") = dataCheckString (Values.Del p' "hash"))
    (hu : Values.Get p "user" = Values.Get p' "user") :
    validateValues E p botToken = validateValues E p' botToken := by
  unfold validateValues
  simp only [Get_user_Del_hash, hh, hc, hu]

theorem OneCharChanged.ne {s t : String} (h : OneCharChanged s t) : t ≠ s := by
  obtain ⟨a, c, d, b, hcd, hs, ht⟩ := h
  intro e
  rw [e, hs] at ht
  simp only [List.append_cancel_left_eq, List.cons.injEq, and_true] at ht
  exact hcd ht

theorem OneCharChanged.ne_empty {s t : String} (h : OneCharChanged s t) : t ≠ "" := by
  obtain ⟨a, c, d, b, _, _, ht⟩ := h
  intro e
  rw [e] at ht
  have := congrArg List.length ht
  simp at this
  omega

/-! ## `validateInitData`: rejections -/

theorem validateValues_missing_signature (E : Externals) (parsed : Values) (botToken : String)
    (h : Values.Get parsed "hash" = "") :
    validateValues E parsed botToken = .error errMissingSignature := by
  unfold validateValues
  simp [h]

theorem validateValues_mismatch (E : Externals) (parsed : Values) (botToken : String)
    (h1 : Values.Get parsed "hash" ≠ "")
    (h2 : calculatedHash E botToken (dataCheckString (Values.Del parsed "hash")) ≠
      Values.Get parsed "hash") :
    validateValues E parsed botToken = .error errSignatureMismatch := by
  unfold validateValues
  simp [h1, h2]

/-- C4: a blob that parses as a query string and has no `hash` key is rejected with
the missing-signature error (`hash не найден в initData`), so no identity is returned,
whatever its other fields are. -/
theorem validateInitData_without_hash (E : Externals) (initData botToken : String)
    (hparse : (ParseQuery initData).2 = none)
    (hno : "hash" ∉ (fields initData).map Prod.fst) :
    validateInitData E initData botToken = .error errMissingSignature ∧
      ∀ user, validateInitData E initData botToken ≠ .ok user := by
  have h : validateInitData E initData botToken = .error errMissingSignature := by
    rw [validateInitData_eq, if_pos hparse]
    apply validateValues_missing_signature
    rw [ParseQuery_Get]
    exact firstValue_of_not_mem hno
  exact ⟨h, fun user e => by rw [h] at e; exact absurd e (by simp)⟩

/-- C4 at a blob with a well-formed `user` field and no `hash`. -/
theorem validateInitData_without_hash_witness :
    validateInitData sampleExternals "auth_date=1700000000&user=%7B%22id%22%3A7%7D" "TOKEN" =
        .error errMissingSignature ∧
      ∀ user, validateInitData sampleExternals
        "auth_date=1700000000&user=%7B%22id%22%3A7%7D" "TOKEN" ≠ .ok user :=
  validateInitData_without_hash sampleExternals
    "auth_date=1700000000&user=%7B%22id%22%3A7%7D" "TOKEN" (by decide) (by decide)

theorem exists_segment_of_mem (c : Char) (hc : c ≠ '&') :
    ∀ l : List Char, c ∈ l → ∃ seg ∈ segments l, c ∈ seg
  | [], h => by simp at h
  | x :: xs, h => by
    by_cases hx : x = '&'
    · have hmem : c ∈ xs := by
        rcases List.mem_cons.1 h with e | e
        · exact absurd (e.trans hx) hc
        · exact e
      obtain ⟨seg, hseg, hcs⟩ := exists_segment_of_mem c hc xs hmem
      exact ⟨seg, by simp [segments, hx, hseg], hcs⟩
    · rcases hs : segments xs with _ | ⟨s, ss⟩
      · refine ⟨[x], by simp [segments, hx, hs], ?_⟩
        rcases List.mem_cons.1 h with e | e
        · simp [e]
        · obtain ⟨seg, hseg, _⟩ := exists_segment_of_mem c hc xs e
          rw [hs] at hseg
          simp at hseg
      · rcases List.mem_cons.1 h with e | e
        · exact ⟨x :: s, by simp [segments, hx, hs], by simp [e]⟩
        · obtain ⟨seg, hseg, hcs⟩ := exists_segment_of_mem c hc xs e
          rw [hs] at hseg
          rcases List.mem_cons.1 hseg with e2 | e2
          · exact ⟨x :: s, by simp [segments, hx, hs], by simp [← e2, hcs]⟩
          · exact ⟨seg, by simp [segments, hx, hs, e2], hcs⟩

/-- A blob with a semicolon anywhere is rejected as malformed input, whatever the
library functions and the secret are: `url.ParseQuery` fails before the hash is read. -/
theorem validateInitData_semicolon (E : Externals) (initData botToken : String)
    (h : ';' ∈ initData.toList) :
    validateInitData E initData botToken = .error errMalformedInput := by
  obtain ⟨seg, hseg, hcs⟩ := exists_segment_of_mem ';' (by decide) initData.toList h
  have hbad : badSegment seg = true := by
    have hd : decodeSegment seg = some (.error .invalidSemicolon) := by
      unfold decodeSegment
      rw [if_pos (by simpa using hcs)]
    simp [badSegment, hd]
  have hne : (ParseQuery initData).2 ≠ none := by
    intro hp
    have := (ParseQuery_snd initData).1 hp seg hseg
    rw [hbad] at this
    exact absurd this (by decide)
  rw [validateInitData_eq, if_neg hne]

/-- C3, as stated, fails: the blob `user={"id":7}&hash=b6b6...` is accepted, and replacing
the first character of its `hash` field by `;`, or the last one by `%`, is rejected as
malformed input, and replacing the first one by `&` as a missing signature: none of the
three is the signature-mismatch error. -/
theorem validateInitData_hash_flip_other_rejections :
    validateInitData sampleExternals
        ("user=%7B%22id%22%3A7%7D&hash=" ++ "b" ++ "6b6b6b6b6b6b6b6b6b6b6b6b6b6b6b6b6b6b6b6b6b6b6b6b6b6b6b6b6b6b6b6") "TOKEN"
      = .ok ⟨7, "", "", ""⟩ ∧
    validateInitData sampleExternals
        ("user=%7B%22id%22%3A7%7D&hash=" ++ ";" ++ "6b6b6b6b6b6b6b6b6b6b6b6b6b6b6b6b6b6b6b6b6b6b6b6b6b6b6b6b6b6b6b6") "TOKEN"
      = .error errMalformedInput ∧
    validateInitData sampleExternals
        ("user=%7B%22id%22%3A7%7D&hash=" ++ "b" ++ "6b6b6b6b6b6b6b6b6b6b6b6b6b6b6b6b6b6b6b6b6b6b6b6b6b6b6b6b6b6b6b" ++ "%") "TOKEN"
      = .error errMalformedInput ∧
    validateInitData sampleExternals
        ("user=%7B%22id%22%3A7%7D&hash=" ++ "&" ++ "6b6b6b6b6b6b6b6b6b6b6b6b6b6b6b6b6b6b6b6b6b6b6b6b6b6b6b6b6b6b6b6") "TOKEN"
      = .error errMissingSignature ∧
    errMalformedInput ≠ errSignatureMismatch ∧ errMissingSignature ≠ errSignatureMismatch := by
  decide

/-- C3, amended: when a blob is accepted and one character of the decoded value of its
first `hash` field is changed to a different character, the blob still parsing and its
other fields unchanged, `validateInitData` rejects it with the signature-mismatch error
(`подпись не совпадает`): no identity and no other rejection. -/
theorem validateInitData_hash_value_changed (E : Externals) (initData initData' botToken : String)
    (user : TelegramUser) (pre post : List (String × String)) (hash hash' : String)
    (hok : validateInitData E initData botToken = .ok user)
    (hparse : (ParseQuery initData').2 = none)
    (hfields : fields initData = pre ++ ("hash", hash) :: post)
    (hfields' : fields initData' = pre ++ ("hash", hash') :: post)
    (hfirst : "hash" ∉ pre.map Prod.fst)
    (hchanged : OneCharChanged hash hash') :
    validateInitData E initData' botToken = .error errSignatureMismatch := by
  have hget : ∀ (q : String) (h : String), fields q = pre ++ ("hash", h) :: post →
      Values.Get (ParseQuery q).1 "hash" = h := by
    intro q h hq
    rw [ParseQuery_Get, hq, firstValue_append, if_neg hfirst]
    simp [firstValue]
  have hother : ∀ k, k ≠ "hash" →
      Values.Get (ParseQuery initData').1 k = Values.Get (ParseQuery initData).1 k := by
    intro k hk
    have hk' : ¬ "hash" = k := fun e => hk e.symm
    rw [ParseQuery_Get, ParseQuery_Get, hfields, hfields', firstValue_append, firstValue_append]
    simp [firstValue, hk']
  have hkeys : Values.keys (ParseQuery initData').1 = Values.keys (ParseQuery initData).1 := by
    rw [ParseQuery_fst, ParseQuery_fst]
    apply Values.keys_AddAll_congr
    rw [hfields, hfields']
    simp
  have hcs := dataCheckString_Del_congr (List.Perm.of_eq hkeys) hother
  obtain ⟨-, -, hsig, -, -⟩ := (validateInitData_ok_iff E initData botToken user).1 hok
  rw [hget initData hash hfields] at hsig
  rw [validateInitData_eq, if_pos hparse]
  apply validateValues_mismatch
  · rw [hget initData' hash' hfields']
    exact hchanged.ne_empty
  · rw [hget initData' hash' hfields', hcs]
    unfold calculatedHash
    rw [← hsig]
    exact fun e => hchanged.ne e.symm

/-- C3, amended, at the accepted blob `user={"id":7}&hash=b6b6...`: its last hash
character `6` changed to `7`. -/
theorem validateInitData_hash_value_changed_witness :
    validateInitData sampleExternals ("user=%7B%22id%22%3A7%7D&hash=" ++ "b6b6b6b6b6b6b6b6b6b6b6b6b6b6b6b6b6b6b6b6b6b6b6b6b6b6b6b6b6b6b6b" ++ "7") "TOKEN"
      = .error errSignatureMismatch :=
  validateInitData_hash_value_changed sampleExternals
    ("user=%7B%22id%22%3A7%7D&hash=" ++ "b6b6b6b6b6b6b6b6b6b6b6b6b6b6b6b6b6b6b6b6b6b6b6b6b6b6b6b6b6b6b6b" ++ "6")
    ("user=%7B%22id%22%3A7%7D&hash=" ++ "b6b6b6b6b6b6b6b6b6b6b6b6b6b6b6b6b6b6b6b6b6b6b6b6b6b6b6b6b6b6b6b" ++ "7") "TOKEN"
    ⟨7, "", "", ""⟩ [("user", "\x7b\"id\":7\x7d")] [] ("b6b6b6b6b6b6b6b6b6b6b6b6b6b6b6b6b6b6b6b6b6b6b6b6b6b6b6b6b6b6b6b" ++ "6") ("b6b6b6b6b6b6b6b6b6b6b6b6b6b6b6b6b6b6b6b6b6b6b6b6b6b6b6b6b6b6b6b" ++ "7")
    (by decide) (by decide) (by decide) (by decide) (by decide)
    ⟨"b6b6b6b6b6b6b6b6b6b6b6b6b6b6b6b6b6b6b6b6b6b6b6b6b6b6b6b6b6b6b6b".toList, '6', '7', [], by decide, by decide, by decide⟩

/-! ## `validateInitData`: the `user` field -/

theorem errMalformedUser_ne (detail s : String) (h : s.toList.head? ≠ some 'о') :
    errMalformedUser detail ≠ s := by
  intro e
  apply h
  rw [← e]
  cases detail
  rfl

/-- The five rejections of `validateInitData` are pairwise different error values,
whatever the decoder's text in the last one. -/
theorem errors_pairwise_distinct (detail : String) :
    errMalformedInput ≠ errMissingSignature ∧ errMalformedInput ≠ errSignatureMismatch ∧
    errMalformedInput ≠ errMissingUser ∧ errMalformedInput ≠ errMalformedUser detail ∧
    errMissingSignature ≠ errSignatureMismatch ∧ errMissingSignature ≠ errMissingUser ∧
    errMissingSignature ≠ errMalformedUser detail ∧
    errSignatureMismatch ≠ errMissingUser ∧ errSignatureMismatch ≠ errMalformedUser detail ∧
    errMissingUser ≠ errMalformedUser detail := by
  refine ⟨by decide, by decide, by decide, ?_, by decide, by decide, ?_, by decide, ?_, ?_⟩ <;>
    exact fun e => errMalformedUser_ne detail _ (by decide) e.symm

/-- C5, as stated, fails: the blob `user=&hash=3c3c...` is signed correctly and has a
`user` field, which does not JSON-decode; it is rejected with the missing-user error,
not with the malformed-user error. -/
theorem validateInitData_empty_user_is_missing_user :
    (ParseQuery "user=&hash=3c3c3c3c3c3c3c3c3c3c3c3c3c3c3c3c3c3c3c3c3c3c3c3c3c3c3c3c3c3c3c3c").2 = none ∧
    Values.Get (ParseQuery "user=&hash=3c3c3c3c3c3c3c3c3c3c3c3c3c3c3c3c3c3c3c3c3c3c3c3c3c3c3c3c3c3c3c3c").1 "hash" =
      calculatedHash sampleExternals "TOKEN"
        (dataCheckString (Values.Del (ParseQuery "user=&hash=3c3c3c3c3c3c3c3c3c3c3c3c3c3c3c3c3c3c3c3c3c3c3c3c3c3c3c3c3c3c3c3c").1 "hash")) ∧
    "user" ∈ (fields "user=&hash=3c3c3c3c3c3c3c3c3c3c3c3c3c3c3c3c3c3c3c3c3c3c3c3c3c3c3c3c3c3c3c3c").map Prod.fst ∧
    sampleExternals.jsonUnmarshal (firstValue (fields "user=&hash=3c3c3c3c3c3c3c3c3c3c3c3c3c3c3c3c3c3c3c3c3c3c3c3c3c3c3c3c3c3c3c3c") "user") =
      .error "unexpected end of JSON input" ∧
    validateInitData sampleExternals "user=&hash=3c3c3c3c3c3c3c3c3c3c3c3c3c3c3c3c3c3c3c3c3c3c3c3c3c3c3c3c3c3c3c3c" "TOKEN" = .error errMissingUser ∧
    errMissingUser ≠ errMalformedUser "unexpected end of JSON input" := by
  refine ⟨by decide, by decide, by decide, by decide, by decide, ?_⟩
  exact fun e => errMalformedUser_ne _ _ (by decide) e.symm

/-- C5, amended: for a blob that parses and whose `hash` field equals the signature of
its check string, `validateInitData` rejects with the missing-user error when the first
`user` value is absent or empty, and with the malformed-user error when it is non-empty
and does not JSON-decode; in both cases no identity is returned.  The five rejections
are pairwise different error values. -/
theorem validateInitData_signed_user_rejections (E : Externals) (initData botToken : String)
    (hparse : (ParseQuery initData).2 = none)
    (hsig : Values.Get (ParseQuery initData).1 "hash" =
      calculatedHash E botToken (dataCheckString (Values.Del (ParseQuery initData).1 "hash"))) :
    (firstValue (fields initData) "user" = "" →
      validateInitData E initData botToken = .error errMissingUser) ∧
    (∀ detail, firstValue (fields initData) "user" ≠ "" →
      E.jsonUnmarshal (firstValue (fields initData) "user") = .error detail →
      validateInitData E initData botToken = .error (errMalformedUser detail)) ∧
    (∀ detail,
      errMalformedInput ≠ errMissingSignature ∧ errMalformedInput ≠ errSignatureMismatch ∧
      errMalformedInput ≠ errMissingUser ∧ errMalformedInput ≠ errMalformedUser detail ∧
      errMissingSignature ≠ errSignatureMismatch ∧ errMissingSignature ≠ errMissingUser ∧
      errMissingSignature ≠ errMalformedUser detail ∧
      errSignatureMismatch ≠ errMissingUser ∧ errSignatureMismatch ≠ errMalformedUser detail ∧
      errMissingUser ≠ errMalformedUser detail) := by
  have hne : Values.Get (ParseQuery initData).1 "hash" ≠ "" := by
    rw [hsig]
    exact E.signature_nonempty _ _
  have hval : validateInitData E initData botToken =
      if firstValue (fields initData) "user" = "" then .error errMissingUser
      else match E.jsonUnmarshal (firstValue (fields initData) "user") with
        | .error err => .error (errMalformedUser err)
        | .ok user => .ok user := by
    rw [validateInitData_eq, if_pos hparse]
    unfold validateValues
    simp only [Get_user_Del_hash, ParseQuery_Get] at hne hsig ⊢
    rw [if_neg hne, if_neg (not_not.2 hsig.symm)]
  refine ⟨fun h => ?_, fun detail h1 h2 => ?_, errors_pairwise_distinct⟩
  · rw [hval, if_pos h]
  · rw [hval, if_neg h1, h2]

/-- C5, amended, at two correctly signed blobs: one without a `user` field, one whose
`user` field is the text `x`. -/
theorem validateInitData_signed_user_rejections_witness :
    validateInitData sampleExternals "auth_date=1700000000&hash=1414141414141414141414141414141414141414141414141414141414141414" "TOKEN" =
      .error errMissingUser ∧
    validateInitData sampleExternals "user=x&hash=b4b4b4b4b4b4b4b4b4b4b4b4b4b4b4b4b4b4b4b4b4b4b4b4b4b4b4b4b4b4b4b4" "TOKEN" =
      .error (errMalformedUser "unexpected end of JSON input") :=
  ⟨(validateInitData_signed_user_rejections sampleExternals
      "auth_date=1700000000&hash=1414141414141414141414141414141414141414141414141414141414141414" "TOKEN" (by decide) (by decide)).1 (by decide),
   (validateInitData_signed_user_rejections sampleExternals
      "user=x&hash=b4b4b4b4b4b4b4b4b4b4b4b4b4b4b4b4b4b4b4b4b4b4b4b4b4b4b4b4b4b4b4b4" "TOKEN" (by decide) (by decide)).2.1 _ (by decide) (by decide)⟩

/-! ## The check string -/

theorem fields_perm {q q' : String} (h : (segments q'.toList).Perm (segments q.toList)) :
    (fields q').Perm (fields q) :=
  h.filterMap _

theorem ParseQuery_snd_perm {q q' : String} (h : (segments q'.toList).Perm (segments q.toList)) :
    (ParseQuery q').2 = none ↔ (ParseQuery q).2 = none := by
  rw [ParseQuery_snd, ParseQuery_snd]
  exact ⟨fun H seg hs => H seg (h.mem_iff.2 hs), fun H seg hs => H seg (h.mem_iff.1 hs)⟩

theorem ParseQuery_keys_perm {q q' : String} (h : (fields q').Perm (fields q)) :
    (Values.keys (ParseQuery q').1).Perm (Values.keys (ParseQuery q).1) := by
  rw [List.perm_ext_iff_of_nodup (ParseQuery_nodup_keys q') (ParseQuery_nodup_keys q)]
  intro k
  rw [ParseQuery_mem_keys, ParseQuery_mem_keys]
  exact (h.map Prod.fst).mem_iff

/-- C2, as stated, fails for a repeated key: the blobs `a=1&a=2` and `a=2&a=1` hold the
same fields in a different order and have the check strings `a=1` and `a=2`; likewise
the signed blob `user={"id":7}&user=x&hash=b6b6...` is accepted and the same fields
with the two `user` fields exchanged are rejected. -/
theorem dataCheckString_repeated_key_order :
    (segments "a=2&a=1".toList).Perm (segments "a=1&a=2".toList) ∧
    (ParseQuery "a=1&a=2").2 = none ∧ (ParseQuery "a=2&a=1").2 = none ∧
    dataCheckString (Values.Del (ParseQuery "a=1&a=2").1 "hash") = "a=1" ∧
    dataCheckString (Values.Del (ParseQuery "a=2&a=1").1 "hash") = "a=2" ∧
    (segments "user=x&user=%7B%22id%22%3A7%7D&hash=b6b6b6b6b6b6b6b6b6b6b6b6b6b6b6b6b6b6b6b6b6b6b6b6b6b6b6b6b6b6b6b6".toList).Perm
      (segments "user=%7B%22id%22%3A7%7D&user=x&hash=b6b6b6b6b6b6b6b6b6b6b6b6b6b6b6b6b6b6b6b6b6b6b6b6b6b6b6b6b6b6b6b6".toList) ∧
    validateInitData sampleExternals "user=%7B%22id%22%3A7%7D&user=x&hash=b6b6b6b6b6b6b6b6b6b6b6b6b6b6b6b6b6b6b6b6b6b6b6b6b6b6b6b6b6b6b6b6" "TOKEN"
      = .ok ⟨7, "", "", ""⟩ ∧
    validateInitData sampleExternals "user=x&user=%7B%22id%22%3A7%7D&hash=b6b6b6b6b6b6b6b6b6b6b6b6b6b6b6b6b6b6b6b6b6b6b6b6b6b6b6b6b6b6b6b6" "TOKEN"
      = .error errSignatureMismatch := by
  decide

/-- C2, amended: the check string built by `validateInitData` is one line `key=value`
for each distinct key of the blob other than `hash`, the value being the first decoded
value written for that key, the lines in strictly ascending byte-wise order of key and
joined by a single newline with none before or after; it does not depend on the order
in which the parsed map is enumerated; and for a blob in which no key is repeated, the
check string and the validation result do not depend on the order in which the fields
are written. -/
theorem dataCheckString_canonical (initData : String) :
    (∃ ks : List String, ks.Sorted (· < ·) ∧
      (∀ k, k ∈ ks ↔ k ∈ (fields initData).map Prod.fst ∧ k ≠ "hash") ∧
      dataCheckString (Values.Del (ParseQuery initData).1 "hash") =
        "\n".intercalate (ks.map (fun k => k ++ "=" ++ firstValue (fields initData) k))) ∧
    (∀ keys : List String, keys.Perm (Values.keys (Values.Del (ParseQuery initData).1 "hash")) →
      dataCheckStringOf (Values.Del (ParseQuery initData).1 "hash") keys =
        dataCheckString (Values.Del (ParseQuery initData).1 "hash")) ∧
    (∀ initData' : String, (segments initData'.toList).Perm (segments initData.toList) →
      ((fields initData).map Prod.fst).Nodup →
      dataCheckString (Values.Del (ParseQuery initData').1 "hash") =
        dataCheckString (Values.Del (ParseQuery initData).1 "hash") ∧
      ∀ (E : Externals) (botToken : String),
        validateInitData E initData' botToken = validateInitData E initData botToken) := by
  refine ⟨⟨sortStrings (Values.keys (Values.Del (ParseQuery initData).1 "hash")), ?_, ?_, ?_⟩,
    ?_, ?_⟩
  · apply sortStrings_strict
    rw [Values.keys_Del]
    exact (ParseQuery_nodup_keys initData).filter _
  · intro k
    rw [mem_sortStrings, Values.keys_Del, List.mem_filter, ParseQuery_mem_keys]
    simp
  · unfold dataCheckString dataCheckStringOf
    congr 1
    apply List.map_congr_left
    intro k hk
    rw [mem_sortStrings, Values.keys_Del, List.mem_filter] at hk
    have hne : k ≠ "hash" := by simpa using hk.2
    rw [Values.Get_Del, if_neg hne, ParseQuery_Get]
  · intro keys hperm
    exact dataCheckStringOf_congr hperm (fun _ _ => rfl)
  · intro initData' hperm hnodup
    have hf := fields_perm hperm
    have hget : ∀ k, Values.Get (ParseQuery initData').1 k =
        Values.Get (ParseQuery initData).1 k := by
      intro k
      rw [ParseQuery_Get, ParseQuery_Get]
      exact (firstValue_perm hf.symm hnodup k).symm
    have hcs := dataCheckString_Del_congr (ParseQuery_keys_perm hf) (fun k _ => hget k)
    refine ⟨hcs, fun E botToken => ?_⟩
    rw [validateInitData_eq, validateInitData_eq]
    by_cases hp : (ParseQuery initData).2 = none
    · rw [if_pos hp, if_pos ((ParseQuery_snd_perm hperm).2 hp)]
      exact validateValues_congr E botToken (hget _) hcs (hget _)
    · rw [if_neg hp, if_neg (fun h => hp ((ParseQuery_snd_perm hperm).1 h))]

/-- C2, amended, at the blob `user={"id":7}&auth_date=1&hash=h`: its check string is
`auth_date=1`, newline, `user={"id":7}`, also when the keys are enumerated in the other
order, and writing the fields in another order changes neither it nor the result. -/
theorem dataCheckString_canonical_witness :
    dataCheckString (Values.Del (ParseQuery "user=%7B%22id%22%3A7%7D&auth_date=1&hash=h").1
        "hash") = "auth_date=1\nuser=\x7b\"id\":7\x7d" ∧
    dataCheckStringOf (Values.Del (ParseQuery "user=%7B%22id%22%3A7%7D&auth_date=1&hash=h").1
        "hash") ["auth_date", "user"] = "auth_date=1\nuser=\x7b\"id\":7\x7d" ∧
    dataCheckString (Values.Del (ParseQuery "hash=h&auth_date=1&user=%7B%22id%22%3A7%7D").1
        "hash") = "auth_date=1\nuser=\x7b\"id\":7\x7d" ∧
    validateInitData sampleExternals "hash=h&auth_date=1&user=%7B%22id%22%3A7%7D" "TOKEN" =
      validateInitData sampleExternals "user=%7B%22id%22%3A7%7D&auth_date=1&hash=h" "TOKEN" := by
  have h := dataCheckString_canonical "user=%7B%22id%22%3A7%7D&auth_date=1&hash=h"
  have h3 := h.2.2 "hash=h&auth_date=1&user=%7B%22id%22%3A7%7D" (by decide) (by decide)
  have h2 := h.2.1 ["auth_date", "user"] (by decide)
  have h0 : dataCheckString
      (Values.Del (ParseQuery "user=%7B%22id%22%3A7%7D&auth_date=1&hash=h").1 "hash") =
      "auth_date=1\nuser=\x7b\"id\":7\x7d" := by decide
  exact ⟨h0, h2.trans h0, h3.1.trans h0, h3.2 sampleExternals "TOKEN"⟩

/-! ## `withAuth` -/

/-- C6, as stated, fails: with `DEV_MODE=true` a request without an `Authorization`
header, for which `validateInitData` returns an error, is not answered 401; the wrapped
handler is invoked, with the identity 12345 "Developer" in the request context. -/
theorem withAuth_dev_mode_invokes_handler :
    validateInitData sampleExternals (TrimStart "" "tma ") "TOKEN" = .error errMissingSignature ∧
    withAuth sampleExternals "true" "TOKEN" probeHandler [] ⟨"", none, "", ""⟩ =
      [⟨200, .strings [("first_name", "Developer")]⟩] ∧
    ∀ (next : HandlerFunc) (w : ResponseWriter) (r : Request),
      withAuth sampleExternals "true" "TOKEN" next w r = next w { r with user := some devUser } :=
  ⟨by decide, by decide, fun _ _ _ => rfl⟩

/-- C6, amended: when `DEV_MODE` is not `true`, the wrapped handler is invoked only when
`validateInitData` returned an identity for the blob carried in the `Authorization`
header, and then with exactly that identity in the request context; when the header is
absent or `validateInitData` rejects the blob, `withAuth` answers 401 whatever the
wrapped handler is, so without invoking it.  When `DEV_MODE` is `true` the handler is
invoked with the fixed development identity. -/
theorem withAuth_spec (E : Externals) (devMode botToken : String) (w : ResponseWriter)
    (r : Request) :
    (devMode ≠ "true" → ∀ user,
      r.Authorization ≠ "" →
      validateInitData E (TrimStart r.Authorization "tma ") botToken = .ok user →
      ∀ next, withAuth E devMode botToken next w r = next w { r with user := some user }) ∧
    (devMode ≠ "true" → r.Authorization = "" →
      ∀ next, withAuth E devMode botToken next w r =
        w ++ [⟨401, .strings [("error", "отсутствует заголовок Authorization")]⟩]) ∧
    (devMode ≠ "true" → ∀ err,
      validateInitData E (TrimStart r.Authorization "tma ") botToken = .error err →
      ∃ message, ∀ next, withAuth E devMode botToken next w r =
        w ++ [⟨401, .strings [("error", message)]⟩]) ∧
    (devMode = "true" →
      ∀ next, withAuth E devMode botToken next w r = next w { r with user := some devUser }) := by
  refine ⟨fun hd user hh hv next => ?_, fun hd hh next => ?_, fun hd err hv => ?_,
    fun hd next => ?_⟩
  · simp [withAuth, hd, hh, hv]
  · simp [withAuth, hd, hh, writeJSON]
  · by_cases hh : r.Authorization = ""
    · exact ⟨"отсутствует заголовок Authorization",
        fun next => by simp [withAuth, hd, hh, writeJSON]⟩
    · exact ⟨"неверная авторизация: " ++ err,
        fun next => by simp [withAuth, hd, hh, hv, writeJSON]⟩
  · simp [withAuth, hd]

/-- C6, amended, at three requests with `DEV_MODE` unset: a signed blob after `tma `
reaches the handler with the identity 7, a blob with a wrong signature and a request
without the header are answered 401. -/
theorem withAuth_spec_witness :
    withAuth sampleExternals "" "TOKEN" probeHandler []
        ⟨"tma user=%7B%22id%22%3A7%7D&hash=b6b6b6b6b6b6b6b6b6b6b6b6b6b6b6b6b6b6b6b6b6b6b6b6b6b6b6b6b6b6b6b6", none, "", ""⟩ =
      probeHandler [] ⟨"tma user=%7B%22id%22%3A7%7D&hash=b6b6b6b6b6b6b6b6b6b6b6b6b6b6b6b6b6b6b6b6b6b6b6b6b6b6b6b6b6b6b6b6", some ⟨7, "", "", ""⟩, "", ""⟩ ∧
    withAuth sampleExternals "" "TOKEN" probeHandler [] ⟨"", none, "", ""⟩ =
      [⟨401, .strings [("error", "отсутствует заголовок Authorization")]⟩] ∧
    ∃ message, ∀ next, withAuth sampleExternals "" "TOKEN" next []
        ⟨"tma user=%7B%22id%22%3A7%7D&hash=00", none, "", ""⟩ =
      [⟨401, .strings [("error", message)]⟩] :=
  ⟨(withAuth_spec sampleExternals "" "TOKEN" []
      ⟨"tma user=%7B%22id%22%3A7%7D&hash=b6b6b6b6b6b6b6b6b6b6b6b6b6b6b6b6b6b6b6b6b6b6b6b6b6b6b6b6b6b6b6b6", none, "", ""⟩).1
      (by decide) ⟨7, "", "", ""⟩ (by decide) (by decide) probeHandler,
   (withAuth_spec sampleExternals "" "TOKEN" [] ⟨"", none, "", ""⟩).2.1
      (by decide) (by decide) probeHandler,
   (withAuth_spec sampleExternals "" "TOKEN" []
      ⟨"tma user=%7B%22id%22%3A7%7D&hash=00", none, "", ""⟩).2.2.1
      (by decide) errSignatureMismatch (by decide)⟩

/-! ## The dialog: what each handler does to the state -/

theorem getUserState_setUserState {σ : Type} (b : Bot σ) (u v : Int) (st : UserState) :
    getUserState (setUserState b u st) v = if v = u then st else getUserState b v := rfl

theorem finishTaskCreation_empty {σ : Type} (env : Env σ) (b : Bot σ) (chatID userID : Int)
    (description : String) (h : (getUserState b userID).TempTitle = "") :
    finishTaskCreation env b chatID userID description =
      resetUserState
        (sendText b chatID "⚠️ Что-то пошло не так. Попробуй создать задачу заново.") userID := by
  unfold finishTaskCreation
  simp only [h, if_true]

theorem finishTaskCreation_states {σ : Type} (env : Env σ) (b : Bot σ) (chatID userID : Int)
    (description : String) (v : Int) :
    getUserState (finishTaskCreation env b chatID userID description) v =
      if v = userID then ⟨StepNone, ""⟩ else getUserState b v := by
  unfold finishTaskCreation
  by_cases h : (getUserState b userID).TempTitle = ""
  · simp only [h, if_true]
    rfl
  · simp only [h, if_false]
    rfl

theorem finishTaskCreation_calls_eq {σ : Type} (env : Env σ) (b : Bot σ) (chatID userID : Int)
    (description : String) :
    (finishTaskCreation env b chatID userID description).calls =
      if (getUserState b userID).TempTitle = "" then b.calls
      else b.calls ++ [.AddTask userID (getUserState b userID).TempTitle description] := by
  unfold finishTaskCreation
  by_cases h : (getUserState b userID).TempTitle = ""
  · simp only [h, if_true]
    rfl
  · simp only [h, if_false]
    rfl

theorem handleNewTask_states {σ : Type} (b : Bot σ) (chatID userID v : Int) :
    getUserState (handleNewTask b chatID userID) v =
      if v = userID then ⟨StepWaitTitle, ""⟩ else getUserState b v := rfl

theorem handleTitleInput_states {σ : Type} (b : Bot σ) (chatID userID v : Int) (title : String) :
    getUserState (handleTitleInput b chatID userID title) v =
      if v = userID then ⟨StepWaitDesc, title⟩ else getUserState b v := rfl

theorem handleTaskList_states {σ : Type} (env : Env σ) (b : Bot σ) (chatID userID : Int) :
    (handleTaskList env b chatID userID).states = b.states := by
  unfold handleTaskList
  simp only []
  split <;> rfl

theorem showTaskDetail_states {σ : Type} (env : Env σ) (b : Bot σ) (chatID userID taskID : Int) :
    (showTaskDetail env b chatID userID taskID).states = b.states := by
  unfold showTaskDetail
  simp only []
  split <;> rfl

theorem handleSetStatus_states {σ : Type} (env : Env σ) (b : Bot σ) (chatID userID : Int)
    (data : String) : (handleSetStatus env b chatID userID data).states = b.states := by
  unfold handleSetStatus
  split
  · rfl
  · split
    · rfl
    · simp only []
      split
      · rfl
      · split
        · rw [showTaskDetail_states]
          rfl
        · rfl

theorem handleDelete_states {σ : Type} (env : Env σ) (b : Bot σ) (chatID userID taskID : Int) :
    (handleDelete env b chatID userID taskID).states = b.states := by
  unfold handleDelete
  simp only []
  split <;> rfl

/-- A message leaves the states of all users but its sender alone, and moves the sender
along an edge that depends on the step the sender is in. -/
theorem handleMessage_states {σ : Type} (env : Env σ) (b : Bot σ) (userID chatID : Int)
    (text : String) (v : Int) :
    getUserState (handleMessage env b userID chatID text) v =
      if v = userID then
        if (getUserState b userID).Step = StepWaitTitle then ⟨StepWaitDesc, text⟩
        else if (getUserState b userID).Step = StepWaitDesc then ⟨StepNone, ""⟩
        else if text = "➕ Новая задача" then ⟨StepWaitTitle, ""⟩
        else getUserState b userID
      else getUserState b v := by
  unfold handleMessage
  simp only []
  by_cases h1 : (getUserState b userID).Step = StepWaitTitle
  · rw [if_pos h1, handleTitleInput_states]
    simp only [h1, if_true]
  rw [if_neg h1]
  by_cases h2 : (getUserState b userID).Step = StepWaitDesc
  · rw [if_pos h2]
    unfold handleDescriptionInput
    rw [finishTaskCreation_states, if_neg h1, if_pos h2]
  rw [if_neg h2]
  simp only [h1, h2, if_false]
  by_cases t1 : text = "/start"
  · have t3 : ¬ text = "➕ Новая задача" := by rw [t1]; decide
    rw [if_pos t1, if_neg t3]
    by_cases hv : v = userID
    · rw [if_pos hv, hv]; rfl
    · rw [if_neg hv]; rfl
  rw [if_neg t1]
  by_cases t2 : text = "📋 Мои задачи"
  · have t3 : ¬ text = "➕ Новая задача" := by rw [t2]; decide
    rw [if_pos t2, if_neg t3]
    unfold getUserState
    rw [handleTaskList_states]
    by_cases hv : v = userID
    · rw [if_pos hv, hv]
    · rw [if_neg hv]
  rw [if_neg t2]
  by_cases t3 : text = "➕ Новая задача"
  · rw [if_pos t3, if_pos t3, handleNewTask_states]
  rw [if_neg t3, if_neg t3]
  by_cases hv : v = userID
  · rw [if_pos hv, hv]
    split <;> rfl
  · rw [if_neg hv]
    split <;> rfl

/-- A callback changes a state only when its data is `skip`: then the state of its
sender is reset. -/
theorem handleCallback_states {σ : Type} (env : Env σ) (b : Bot σ) (cbID : String)
    (userID chatID : Int) (data : String) (v : Int) :
    getUserState (handleCallback env b cbID userID chatID data) v =
      if data = "skip" ∧ v = userID then ⟨StepNone, ""⟩ else getUserState b v := by
  unfold handleCallback
  simp only []
  by_cases d1 : data = "skip"
  · rw [if_pos d1, finishTaskCreation_states]
    simp only [d1, true_and]
    rfl
  rw [if_neg d1]
  simp only [d1, false_and, if_false]
  unfold getUserState
  split
  · rw [showTaskDetail_states]
  split
  · rfl
  split
  · rw [handleSetStatus_states]
  split
  · rfl
  split
  · rw [handleDelete_states]
  split
  · rw [handleTaskList_states]
  · rfl

/-- What `finishTaskCreation` does with a non-empty staged title: the task is added to
the store, the state of the user is reset and the confirmation is sent. -/
theorem finishTaskCreation_commit {σ : Type} (env : Env σ) (b : Bot σ) (chatID userID : Int)
    (description : String) (h : (getUserState b userID).TempTitle ≠ "") :
    finishTaskCreation env b chatID userID description =
      sendText
        (resetUserState
          { b with
            storage := (env.AddTask b.storage userID (getUserState b userID).TempTitle
              description).1,
            calls := b.calls ++
              [.AddTask userID (getUserState b userID).TempTitle description] }
          userID)
        chatID
        (createdText (env.AddTask b.storage userID (getUserState b userID).TempTitle
          description).2) := by
  unfold finishTaskCreation createdText
  simp only [h, if_false]

/-! ## The dialog: creating a task -/

/-- C7: whatever the dialog state of the user was, the start of a task creation, a
non-empty title text and then the skip callback or a description text result in exactly
one more call of the task store, `AddTask` with the user, the title verbatim and the
empty string, respectively the description, and leave the user at step NONE; the title
text and the description text are routed there by `handleMessage`.  The call is the
store's own `AddTask`: the store afterwards is the one it returns, and the confirmation
sent last is made from the task it returns. -/
theorem task_creation_adds_one_task {σ : Type} (env : Env σ) (b : Bot σ) (chatID userID : Int)
    (title description cbID : String) (htitle : title ≠ "") :
    handleMessage env (handleNewTask b chatID userID) userID chatID title =
      handleTitleInput (handleNewTask b chatID userID) chatID userID title ∧
    handleMessage env (handleTitleInput (handleNewTask b chatID userID) chatID userID title)
        userID chatID description =
      finishTaskCreation env
        (handleTitleInput (handleNewTask b chatID userID) chatID userID title)
        chatID userID description ∧
    (handleCallback env (handleTitleInput (handleNewTask b chatID userID) chatID userID title)
        cbID userID chatID "skip").calls = b.calls ++ [.AddTask userID title ""] ∧
    (getUserState
      (handleCallback env (handleTitleInput (handleNewTask b chatID userID) chatID userID title)
        cbID userID chatID "skip") userID).Step = StepNone ∧
    (finishTaskCreation env
        (handleTitleInput (handleNewTask b chatID userID) chatID userID title)
        chatID userID description).calls = b.calls ++ [.AddTask userID title description] ∧
    (getUserState
      (finishTaskCreation env
        (handleTitleInput (handleNewTask b chatID userID) chatID userID title)
        chatID userID description) userID).Step = StepNone ∧
    (handleCallback env (handleTitleInput (handleNewTask b chatID userID) chatID userID title)
        cbID userID chatID "skip").storage = (env.AddTask b.storage userID title "").1 ∧
    (handleCallback env (handleTitleInput (handleNewTask b chatID userID) chatID userID title)
        cbID userID chatID "skip").sent =
      b.sent ++ [⟨chatID, "✏️ Введи название задачи:", "", .none⟩,
        ⟨chatID, "📝 Теперь введи описание задачи (или нажми «Пропустить»):", "",
          skipKeyboard⟩,
        ⟨chatID, createdText (env.AddTask b.storage userID title "").2, "", .none⟩] ∧
    (finishTaskCreation env
        (handleTitleInput (handleNewTask b chatID userID) chatID userID title)
        chatID userID description).storage =
      (env.AddTask b.storage userID title description).1 ∧
    (finishTaskCreation env
        (handleTitleInput (handleNewTask b chatID userID) chatID userID title)
        chatID userID description).sent =
      b.sent ++ [⟨chatID, "✏️ Введи название задачи:", "", .none⟩,
        ⟨chatID, "📝 Теперь введи описание задачи (или нажми «Пропустить»):", "",
          skipKeyboard⟩,
        ⟨chatID, createdText (env.AddTask b.storage userID title description).2, "",
          .none⟩] := by
  have hs : getUserState (handleTitleInput (handleNewTask b chatID userID) chatID userID title)
      userID = ⟨StepWaitDesc, title⟩ := by
    rw [handleTitleInput_states, if_pos rfl]
  have hs0 : getUserState (handleNewTask b chatID userID) userID = ⟨StepWaitTitle, ""⟩ := by
    rw [handleNewTask_states, if_pos rfl]
  have hfin : ∀ (answered : List String) (d : String),
      finishTaskCreation env
        { handleTitleInput (handleNewTask b chatID userID) chatID userID title with
          answered := answered } chatID userID d =
      sendText
        (resetUserState
          { handleTitleInput (handleNewTask b chatID userID) chatID userID title with
            answered := answered,
            storage := (env.AddTask b.storage userID title d).1,
            calls := b.calls ++ [.AddTask userID title d] }
          userID)
        chatID (createdText (env.AddTask b.storage userID title d).2) := by
    intro answered d
    have hst : getUserState
        { handleTitleInput (handleNewTask b chatID userID) chatID userID title with
          answered := answered } userID = ⟨StepWaitDesc, title⟩ := hs
    rw [finishTaskCreation_commit env _ chatID userID d (by rw [hst]; exact htitle), hst]
    rfl
  have hcb : handleCallback env
        (handleTitleInput (handleNewTask b chatID userID) chatID userID title) cbID userID chatID
        "skip" =
      finishTaskCreation env
        { handleTitleInput (handleNewTask b chatID userID) chatID userID title with
          answered := (handleTitleInput (handleNewTask b chatID userID) chatID userID
            title).answered ++ [cbID] } chatID userID "" := by
    unfold handleCallback
    simp only [if_true]
  refine ⟨?_, ?_, ?_, ?_, ?_, ?_, ?_, ?_, ?_, ?_⟩
  · unfold handleMessage
    simp only [hs0, if_true]
  · unfold handleMessage
    simp only [hs]
    rw [if_neg (by decide)]
    simp only [if_true]
    rfl
  · unfold handleCallback
    simp only [if_true]
    rw [finishTaskCreation_calls_eq]
    have hs' : getUserState
        { handleTitleInput (handleNewTask b chatID userID) chatID userID title with
          answered := (handleTitleInput (handleNewTask b chatID userID) chatID userID
            title).answered ++ [cbID] } userID = ⟨StepWaitDesc, title⟩ := hs
    rw [hs', if_neg htitle]
    rfl
  · rw [handleCallback_states, if_pos ⟨rfl, rfl⟩]
  · rw [finishTaskCreation_calls_eq, hs, if_neg htitle]
    rfl
  · rw [finishTaskCreation_states, if_pos rfl]
  · rw [hcb]
    exact congrArg Bot.storage (hfin _ "")
  · rw [hcb]
    exact (congrArg Bot.sent (hfin _ "")).trans (by simp [sendText, send, resetUserState,
      setUserState, handleTitleInput, handleNewTask, sendWithInlineKeyboard])
  · exact congrArg Bot.storage
      (hfin (handleTitleInput (handleNewTask b chatID userID) chatID userID title).answered
        description)
  · exact (congrArg Bot.sent
      (hfin (handleTitleInput (handleNewTask b chatID userID) chatID userID title).answered
        description)).trans (by simp [sendText, send, resetUserState, setUserState,
          handleTitleInput, handleNewTask, sendWithInlineKeyboard])

/-- C7 at the title "Buy milk" followed by the skip callback, for a user who has not
talked to the bot before: one `AddTask` call, step NONE, and the store holds the one
task "Buy milk" with an empty description. -/
theorem task_creation_adds_one_task_witness :
    (handleCallback sampleEnv (handleTitleInput (handleNewTask newBot 5 5) 5 5 "Buy milk")
        "cb" 5 5 "skip").calls = [.AddTask 5 "Buy milk" ""] ∧
    (getUserState
      (handleCallback sampleEnv (handleTitleInput (handleNewTask newBot 5 5) 5 5 "Buy milk")
        "cb" 5 5 "skip") 5).Step = StepNone ∧
    (handleCallback sampleEnv (handleTitleInput (handleNewTask newBot 5 5) 5 5 "Buy milk")
        "cb" 5 5 "skip").storage = ⟨[(5, ⟨1, "Buy milk", "", "NEW", 0⟩)], 1⟩ :=
  ⟨(task_creation_adds_one_task sampleEnv newBot 5 5 "Buy milk" "" "cb" (by decide)).2.2.1,
   (task_creation_adds_one_task sampleEnv newBot 5 5 "Buy milk" "" "cb" (by decide)).2.2.2.1,
   (task_creation_adds_one_task sampleEnv newBot 5 5 "Buy milk" "" "cb"
      (by decide)).2.2.2.2.2.2.1.trans (by decide)⟩

/-! ## The dialog: the edges of the step -/

/-- C8, as stated, fails: from step NONE, the menu button for a new task followed by a
press of a skip button takes the user from AWAITING_TITLE to NONE, which is none of the
three edges. -/
theorem dialog_skip_while_awaiting_title :
    (getUserState newBot 5).Step = StepNone ∧
    stepsAfter sampleEnv 5 newBot
        [.message 5 5 "➕ Новая задача", .callback "cb" 5 5 "skip"] =
      [StepWaitTitle, StepNone] ∧
    ¬ SpecEdge StepWaitTitle StepNone ∧ StepWaitTitle ≠ StepNone := by
  refine ⟨by decide, by decide, ?_, by decide⟩
  unfold SpecEdge
  decide

theorem step_after_update {σ : Type} (env : Env σ) (b : Bot σ) (userID : Int) (u : Update)
    (h : (getUserState b userID).Step = StepNone ∨
      (getUserState b userID).Step = StepWaitTitle ∨
      (getUserState b userID).Step = StepWaitDesc) :
    ((getUserState (handleUpdate env b u) userID).Step = (getUserState b userID).Step ∨
      SpecEdge (getUserState b userID).Step (getUserState (handleUpdate env b u) userID).Step ∨
      ((getUserState b userID).Step = StepWaitTitle ∧
        (getUserState (handleUpdate env b u) userID).Step = StepNone ∧
        ∃ cbID chatID, u = .callback cbID userID chatID "skip")) ∧
    ((getUserState (handleUpdate env b u) userID).Step = StepNone ∨
      (getUserState (handleUpdate env b u) userID).Step = StepWaitTitle ∨
      (getUserState (handleUpdate env b u) userID).Step = StepWaitDesc) := by
  cases u with
  | message sender chatID text =>
    simp only [handleUpdate]
    rw [handleMessage_states]
    by_cases hv : userID = sender
    · subst hv
      rw [if_pos rfl]
      by_cases h1 : (getUserState b userID).Step = StepWaitTitle
      · rw [if_pos h1]
        exact ⟨Or.inr (Or.inl (Or.inr (Or.inl ⟨h1, rfl⟩))), Or.inr (Or.inr rfl)⟩
      rw [if_neg h1]
      by_cases h2 : (getUserState b userID).Step = StepWaitDesc
      · rw [if_pos h2]
        exact ⟨Or.inr (Or.inl (Or.inr (Or.inr ⟨h2, rfl⟩))), Or.inl rfl⟩
      rw [if_neg h2]
      have h0 : (getUserState b userID).Step = StepNone := by
        rcases h with h | h | h
        · exact h
        · exact absurd h h1
        · exact absurd h h2
      by_cases t : text = "➕ Новая задача"
      · rw [if_pos t]
        exact ⟨Or.inr (Or.inl (Or.inl ⟨h0, rfl⟩)), Or.inr (Or.inl rfl)⟩
      · rw [if_neg t]
        exact ⟨Or.inl rfl, h⟩
    · rw [if_neg hv]
      exact ⟨Or.inl rfl, h⟩
  | callback cbID sender chatID data =>
    simp only [handleUpdate]
    rw [handleCallback_states]
    by_cases hc : data = "skip" ∧ userID = sender
    · rw [if_pos hc]
      obtain ⟨hd, hv⟩ := hc
      subst hd hv
      refine ⟨?_, Or.inl rfl⟩
      rcases h with h | h | h
      · exact Or.inl h.symm
      · exact Or.inr (Or.inr ⟨h, rfl, cbID, chatID, rfl⟩)
      · exact Or.inr (Or.inl (Or.inr (Or.inr ⟨h, rfl⟩)))
    · rw [if_neg hc]
      exact ⟨Or.inl rfl, h⟩

/-- C8, amended: for every user and every sequence of text messages and callbacks
handled by `handleMessage` and `handleCallback`, starting from step NONE, every change
of the step of that user is one of the three edges NONE to AWAITING_TITLE,
AWAITING_TITLE to AWAITING_DESCRIPTION, AWAITING_DESCRIPTION to NONE, or the edge
AWAITING_TITLE to NONE; and that fourth edge is taken only by a skip callback of the
user. -/
theorem dialog_step_edges {σ : Type} (env : Env σ) (b : Bot σ) (userID : Int)
    (us : List Update) (h0 : (getUserState b userID).Step = StepNone) :
    List.Chain (fun s t => s = t ∨ SpecEdge s t ∨ (s = StepWaitTitle ∧ t = StepNone))
      StepNone (stepsAfter env userID b us) ∧
    ∀ (pre : List Update) (u : Update),
      (getUserState (handleAll env b pre) userID).Step = StepWaitTitle →
      (getUserState (handleUpdate env (handleAll env b pre) u) userID).Step = StepNone →
      ∃ cbID chatID, u = .callback cbID userID chatID "skip" := by
  have inv : ∀ (us : List Update) (b : Bot σ),
      ((getUserState b userID).Step = StepNone ∨ (getUserState b userID).Step = StepWaitTitle ∨
        (getUserState b userID).Step = StepWaitDesc) →
      ((getUserState (handleAll env b us) userID).Step = StepNone ∨
        (getUserState (handleAll env b us) userID).Step = StepWaitTitle ∨
        (getUserState (handleAll env b us) userID).Step = StepWaitDesc) := by
    intro us
    induction us with
    | nil => intro b h; exact h
    | cons u us ih => intro b h; exact ih _ (step_after_update env b userID u h).2
  have chain : ∀ (us : List Update) (b : Bot σ),
      ((getUserState b userID).Step = StepNone ∨ (getUserState b userID).Step = StepWaitTitle ∨
        (getUserState b userID).Step = StepWaitDesc) →
      List.Chain (fun s t => s = t ∨ SpecEdge s t ∨ (s = StepWaitTitle ∧ t = StepNone))
        (getUserState b userID).Step (stepsAfter env userID b us) := by
    intro us
    induction us with
    | nil => intro b _; exact List.Chain.nil
    | cons u us ih =>
      intro b h
      obtain ⟨hstep, hnext⟩ := step_after_update env b userID u h
      refine List.Chain.cons ?_ (ih _ hnext)
      rcases hstep with e | e | ⟨e1, e2, _⟩
      · exact Or.inl e.symm
      · exact Or.inr (Or.inl e)
      · exact Or.inr (Or.inr ⟨e1, e2⟩)
  refine ⟨?_, ?_⟩
  · have := chain us b (Or.inl h0)
    rwa [h0] at this
  · intro pre u h1 h2
    rcases (step_after_update env (handleAll env b pre) userID u (inv pre b (Or.inl h0))).1
      with e | e | ⟨_, _, e⟩
    · rw [h1, h2] at e
      exact absurd e (by decide)
    · rw [h1, h2] at e
      unfold SpecEdge at e
      exact absurd e (by decide)
    · exact e

/-- C8, amended, at a run that takes all four edges. -/
theorem dialog_step_edges_witness :
    List.Chain (fun s t => s = t ∨ SpecEdge s t ∨ (s = StepWaitTitle ∧ t = StepNone))
      StepNone
      (stepsAfter sampleEnv 5 newBot
        [.message 5 5 "➕ Новая задача", .message 5 5 "Buy milk", .message 5 5 "2 l",
         .message 5 5 "➕ Новая задача", .callback "cb" 5 5 "skip"]) :=
  (dialog_step_edges sampleEnv newBot 5
    [.message 5 5 "➕ Новая задача", .message 5 5 "Buy milk", .message 5 5 "2 l",
     .message 5 5 "➕ Новая задача", .callback "cb" 5 5 "skip"] (by decide)).1

/-! ## The dialog: an empty staged title at commit -/

/-- C9, as stated, fails: for a user at step AWAITING_DESCRIPTION whose staged title is
empty, neither a description text nor the skip callback calls the task store. -/
theorem finishTaskCreation_empty_title_no_AddTask :
    (getUserState (setUserState newBot 5 ⟨StepWaitDesc, ""⟩) 5).TempTitle = "" ∧
    (finishTaskCreation sampleEnv (setUserState newBot 5 ⟨StepWaitDesc, ""⟩) 5 5 "2 l").calls
      = [] ∧
    (handleMessage sampleEnv (setUserState newBot 5 ⟨StepWaitDesc, ""⟩) 5 5 "2 l").calls = [] ∧
    (handleCallback sampleEnv (setUserState newBot 5 ⟨StepWaitDesc, ""⟩) "cb" 5 5 "skip").calls
      = [] ∧
    (finishTaskCreation sampleEnv (setUserState newBot 5 ⟨StepWaitDesc, ""⟩) 5 5
      "2 l").storage = newBot.storage := by
  decide

/-- C9, amended: when a description text or the skip event is committed,
`finishTaskCreation` calls `AddTask` exactly when the staged title of the user is not
empty, then once, with the user, the staged title and the given description (the empty
string for skip); with an empty staged title it makes no call of the task store. -/
theorem commit_calls_AddTask_iff_title_nonempty {σ : Type} (env : Env σ) (b : Bot σ)
    (chatID userID : Int) (description cbID : String) :
    (finishTaskCreation env b chatID userID description).calls =
      (if (getUserState b userID).TempTitle = "" then b.calls
       else b.calls ++ [.AddTask userID (getUserState b userID).TempTitle description]) ∧
    (handleCallback env b cbID userID chatID "skip").calls =
      (if (getUserState b userID).TempTitle = "" then b.calls
       else b.calls ++ [.AddTask userID (getUserState b userID).TempTitle ""]) ∧
    ((getUserState b userID).TempTitle = "" →
      (finishTaskCreation env b chatID userID description).storage = b.storage) := by
  refine ⟨finishTaskCreation_calls_eq env b chatID userID description, ?_, fun h => ?_⟩
  · unfold handleCallback
    simp only [if_true]
    rw [finishTaskCreation_calls_eq]
    rfl
  · rw [finishTaskCreation_empty env b chatID userID description h]
    rfl

/-- C9, amended, at an empty staged title: the store is left as it was. -/
theorem commit_calls_AddTask_iff_title_nonempty_witness :
    (finishTaskCreation sampleEnv (setUserState newBot 5 ⟨StepWaitDesc, ""⟩) 5 5
      "2 l").storage = newBot.storage :=
  (commit_calls_AddTask_iff_title_nonempty sampleEnv
    (setUserState newBot 5 ⟨StepWaitDesc, ""⟩) 5 5 "2 l" "cb").2.2 (by decide)

/-- C10: when the staged title of the user is empty as `finishTaskCreation` runs, for a
description text or for skip, no method of the task store is called and the store is
unchanged, the dialog state of the user is reset to step NONE with an empty staged
title, and exactly one message, the generic request to try again, is sent to the chat;
the handler returns. -/
theorem finishTaskCreation_empty_title_recovers {σ : Type} (env : Env σ) (b : Bot σ)
    (chatID userID : Int) (description cbID : String)
    (h : (getUserState b userID).TempTitle = "") :
    (finishTaskCreation env b chatID userID description).calls = b.calls ∧
    (finishTaskCreation env b chatID userID description).storage = b.storage ∧
    getUserState (finishTaskCreation env b chatID userID description) userID = ⟨StepNone, ""⟩ ∧
    (finishTaskCreation env b chatID userID description).sent =
      b.sent ++ [⟨chatID, "⚠️ Что-то пошло не так. Попробуй создать задачу заново.", "",
        .none⟩] ∧
    (handleCallback env b cbID userID chatID "skip").calls = b.calls ∧
    (handleCallback env b cbID userID chatID "skip").storage = b.storage ∧
    getUserState (handleCallback env b cbID userID chatID "skip") userID = ⟨StepNone, ""⟩ ∧
    (handleCallback env b cbID userID chatID "skip").sent =
      b.sent ++ [⟨chatID, "⚠️ Что-то пошло не так. Попробуй создать задачу заново.", "",
        .none⟩] := by
  have hcb : handleCallback env b cbID userID chatID "skip" =
      finishTaskCreation env { b with answered := b.answered ++ [cbID] } chatID userID "" := by
    unfold handleCallback
    simp only [if_true]
  have h' : (getUserState { b with answered := b.answered ++ [cbID] } userID).TempTitle = "" := h
  rw [hcb, finishTaskCreation_empty env b chatID userID description h,
    finishTaskCreation_empty env _ chatID userID "" h']
  refine ⟨rfl, rfl, ?_, rfl, rfl, rfl, ?_, rfl⟩
  · unfold resetUserState
    rw [getUserState_setUserState, if_pos rfl]
  · unfold resetUserState
    rw [getUserState_setUserState, if_pos rfl]

/-- C10 at a user in step AWAITING_DESCRIPTION with an empty staged title who sends a
description. -/
theorem finishTaskCreation_empty_title_recovers_witness :
    (finishTaskCreation sampleEnv (setUserState newBot 5 ⟨StepWaitDesc, ""⟩) 5 5 "2 l").calls
      = [] ∧
    getUserState (finishTaskCreation sampleEnv (setUserState newBot 5 ⟨StepWaitDesc, ""⟩) 5 5
      "2 l") 5 = ⟨StepNone, ""⟩ ∧
    (finishTaskCreation sampleEnv (setUserState newBot 5 ⟨StepWaitDesc, ""⟩) 5 5 "2 l").sent =
      [⟨5, "⚠️ Что-то пошло не так. Попробуй создать задачу заново.", "", .none⟩] :=
  have h := finishTaskCreation_empty_title_recovers sampleEnv
    (setUserState newBot 5 ⟨StepWaitDesc, ""⟩) 5 5 "2 l" "cb" (by decide)
  ⟨h.1, h.2.2.1, h.2.2.2.1⟩

/-! ## The dialog: starting over -/

/-- C13: whatever the dialog state of the user was, after `handleNewTask` it is step
AWAITING_TITLE with an empty staged title; no method of the task store is called and
the store is unchanged, so a creation in flight is abandoned without a task. -/
theorem handleNewTask_restarts {σ : Type} (b : Bot σ) (chatID userID : Int) :
    getUserState (handleNewTask b chatID userID) userID = ⟨StepWaitTitle, ""⟩ ∧
    (handleNewTask b chatID userID).calls = b.calls ∧
    (handleNewTask b chatID userID).storage = b.storage ∧
    ∀ other, other ≠ userID →
      getUserState (handleNewTask b chatID userID) other = getUserState b other := by
  refine ⟨?_, rfl, rfl, fun other h => ?_⟩
  · rw [handleNewTask_states, if_pos rfl]
  · rw [handleNewTask_states, if_neg h]

/-- C13 at a user who was asked for a description with the title "Buy milk" staged:
after `handleNewTask` the title is gone, the step is AWAITING_TITLE and another user is
left as before. -/
theorem handleNewTask_restarts_witness :
    getUserState (handleNewTask (setUserState newBot 5 ⟨StepWaitDesc, "Buy milk"⟩) 5 5) 6 =
      getUserState (setUserState newBot 5 ⟨StepWaitDesc, "Buy milk"⟩) 6 :=
  (handleNewTask_restarts (setUserState newBot 5 ⟨StepWaitDesc, "Buy milk"⟩) 5 5).2.2.2 6
    (by decide)

/-! ## `strconv.Atoi` reads what `%d` prints -/

theorem decimalDigits_append (fuel n : Nat) (acc : List Char) :
    decimalDigits fuel n acc = decimalDigits fuel n [] ++ acc := by
  induction fuel generalizing n acc with
  | zero => rfl
  | succ fuel ih =>
    unfold decimalDigits
    by_cases h : n < 10
    · simp [h]
    · simp only [h, if_false]
      rw [ih (n / 10) (Char.ofNat (48 + n % 10) :: acc), ih (n / 10) [Char.ofNat (48 + n % 10)]]
      simp

theorem digitValue_ofNat (d : Nat) (h : d < 10) : digitValue (Char.ofNat (48 + d)) = some d := by
  interval_cases d <;> decide

theorem parseDigits_append_single (acc : Nat) (xs : List Char) (c : Char) :
    parseDigits acc (xs ++ [c]) =
      match parseDigits acc xs with
      | some v => (digitValue c).map (fun d => v * 10 + d)
      | none => none := by
  induction xs generalizing acc with
  | nil =>
    simp only [List.nil_append, parseDigits]
    cases digitValue c <;> rfl
  | cons x xs ih =>
    simp only [List.cons_append, parseDigits]
    cases digitValue x with
    | none => rfl
    | some d => exact ih _

theorem parseDigits_decimalDigits (fuel n : Nat) (h : n < fuel) :
    parseDigits 0 (decimalDigits fuel n []) = some n := by
  induction fuel generalizing n with
  | zero => omega
  | succ fuel ih =>
    unfold decimalDigits
    by_cases h10 : n < 10
    · simp only [h10, if_true, parseDigits, digitValue_ofNat n h10]
      simp
    · simp only [h10, if_false]
      rw [decimalDigits_append, parseDigits_append_single, ih (n / 10) (by omega),
        digitValue_ofNat (n % 10) (Nat.mod_lt _ (by decide))]
      simp only [Option.map_some']
      congr 1
      omega

/-- Every character `%d` prints for a natural number is a decimal digit. -/
theorem decimalDigits_digit (fuel n : Nat) :
    ∀ c ∈ decimalDigits fuel n [], ∃ d, d < 10 ∧ c = Char.ofNat (48 + d) := by
  induction fuel generalizing n with
  | zero => intro c hc; simp [decimalDigits] at hc
  | succ fuel ih =>
    intro c hc
    unfold decimalDigits at hc
    by_cases h10 : n < 10
    · simp only [h10, if_true, List.mem_singleton] at hc
      exact ⟨n, h10, hc⟩
    · simp only [h10, if_false] at hc
      rw [decimalDigits_append, List.mem_append, List.mem_singleton] at hc
      rcases hc with hc | hc
      · exact ih _ c hc
      · exact ⟨n % 10, Nat.mod_lt _ (by decide), hc⟩

theorem decimalDigits_ne_nil (fuel n : Nat) : decimalDigits (fuel + 1) n [] ≠ [] := by
  unfold decimalDigits
  by_cases h10 : n < 10
  · simp [h10]
  · simp only [h10, if_false]
    rw [decimalDigits_append]
    simp

theorem digit_char_ne (d : Nat) (h : d < 10) :
    Char.ofNat (48 + d) ≠ '-' ∧ Char.ofNat (48 + d) ≠ '+' ∧ Char.ofNat (48 + d) ≠ '_' := by
  interval_cases d <;> decide

theorem Atoi_digits (s : String) (c : Char) (cs : List Char) (hs : s.toList = c :: cs)
    (h1 : c ≠ '-') (h2 : c ≠ '+') :
    Atoi s = match parseDigits 0 (c :: cs) with
      | some n => if n < 2 ^ 63 then some (n : Int) else none
      | none => none := by
  unfold Atoi
  rw [hs]
  split
  · rename_i ds heq
    simp only [List.cons.injEq] at heq
    exact absurd heq.1 h1
  · rename_i ds heq
    simp only [List.cons.injEq] at heq
    exact absurd heq.1 h2
  · rfl

theorem Atoi_formatNat (n : Nat) (h : n < 2 ^ 63) : Atoi (formatNat n) = some (n : Int) := by
  have hne := decimalDigits_ne_nil n n
  rcases hd : decimalDigits (n + 1) n [] with _ | ⟨c, cs⟩
  · exact absurd hd hne
  · obtain ⟨d, hd10, hc⟩ := decimalDigits_digit (n + 1) n c (by rw [hd]; simp)
    have hne := digit_char_ne d hd10
    rw [← hc] at hne
    have hs : (formatNat n).toList = c :: cs := hd
    rw [Atoi_digits _ c cs hs hne.1 hne.2.1, ← hd, parseDigits_decimalDigits _ _ (by omega)]
    simp only []
    rw [if_pos h]

theorem Atoi_neg_formatNat (n : Nat) (h : n ≤ 2 ^ 63) :
    Atoi ("-" ++ formatNat n) = some (-(n : Int)) := by
  have hne := decimalDigits_ne_nil n n
  have hs : ("-" ++ formatNat n).toList = '-' :: decimalDigits (n + 1) n [] := rfl
  unfold Atoi
  rw [hs]
  rcases hd : decimalDigits (n + 1) n [] with _ | ⟨c, cs⟩
  · exact absurd hd hne
  · simp only []
    rw [← hd, parseDigits_decimalDigits _ _ (by omega)]
    simp only []
    rw [if_pos h]

/-- The round trip of a task ID through a callback payload: `strconv.Atoi` reads back
what `%d` printed, for every `int`. -/
theorem Atoi_formatInt (n : Int) (h : IsGoInt n) : Atoi (formatInt n) = some n := by
  unfold formatInt
  obtain ⟨hlo, hhi⟩ := h
  by_cases hn : n < 0
  · rw [if_pos hn, Atoi_neg_formatNat _ (by omega)]
    congr 1
    omega
  · rw [if_neg hn, Atoi_formatNat _ (by omega)]
    congr 1
    omega

/-! ## Prefixes of callback data -/

theorem dropStart_append (p s : List Char) : dropStart p (p ++ s) = some s := by
  induction p with
  | nil => cases s <;> rfl
  | cons c p ih => simp [dropStart, ih]

theorem TrimStart_append (pre x : String) : TrimStart (pre ++ x) pre = x := by
  unfold TrimStart
  have h : (pre ++ x).toList = pre.toList ++ x.toList := String.data_append pre x
  rw [h, dropStart_append]
  rfl

theorem HasStart_append (pre x : String) : HasStart (pre ++ x) pre = true := by
  unfold HasStart
  have h : (pre ++ x).toList = pre.toList ++ x.toList := String.data_append pre x
  rw [h, dropStart_append]
  rfl

/-- The task ID is read back from a payload made of a prefix and the printed ID. -/
theorem parseID_formatInt (pre : String) (n : Int) (h : IsGoInt n) :
    parseID (pre ++ formatInt n) pre = n := by
  unfold parseID
  rw [TrimStart_append, Atoi_formatInt n h]

theorem HasStart_false_of_head (x pre : String) (c d : Char) (cs ds : List Char)
    (hx : x.toList = c :: cs) (hp : pre.toList = d :: ds) (hcd : d ≠ c) :
    HasStart x pre = false := by
  unfold HasStart
  rw [hx, hp]
  simp [dropStart, hcd]

theorem ne_of_head (x y : String) (c d : Char) (cs ds : List Char)
    (hx : x.toList = c :: cs) (hy : y.toList = d :: ds) (hcd : c ≠ d) : x ≠ y := by
  intro e
  rw [e, hy] at hx
  simp only [List.cons.injEq] at hx
  exact hcd hx.1.symm

theorem toList_literal_append (p x : String) : (p ++ x).toList = p.toList ++ x.toList :=
  String.data_append p x

theorem cut_of_not_mem (sep : Char) (a b : List Char) (h : sep ∉ a) :
    cut sep (a ++ sep :: b) = (a, b) := by
  induction a with
  | nil => simp [cut]
  | cons c a ih =>
    simp only [List.mem_cons, not_or] at h
    have hc : ¬ c = sep := fun e => h.1 e.symm
    have e : cut sep (c :: (a ++ sep :: b)) =
        ((cut sep (a ++ sep :: b)).1.cons c, (cut sep (a ++ sep :: b)).2) := by
      simp only [cut, if_neg hc]
    rw [List.cons_append, e, ih h.2]

/-- No character `%d` prints for an `int` is an underscore. -/
theorem formatInt_no_underscore (n : Int) : '_' ∉ (formatInt n).toList := by
  have hd : ∀ m : Nat, '_' ∉ (formatNat m).toList := by
    intro m hm
    obtain ⟨d, hd10, hc⟩ := decimalDigits_digit (m + 1) m '_' hm
    exact (digit_char_ne d hd10).2.2 hc.symm
  unfold formatInt
  by_cases hn : n < 0
  · rw [if_pos hn, toList_literal_append]
    intro hm
    rcases List.mem_append.1 hm with h | h
    · exact absurd h (by decide)
    · exact hd _ h
  · rw [if_neg hn]
    exact hd _

/-- The call `strings.SplitN(data, "_", 3)` on the data of a status button yields the
word `setstatus`, the printed ID and the status key. -/
theorem splitN3_setstatus (x k : String) (hx : '_' ∉ x.toList) :
    splitN3 ("setstatus_" ++ x ++ "_" ++ k) = some ("setstatus", x, k) := by
  have hl : ("setstatus_" ++ x ++ "_" ++ k).toList =
      "setstatus".toList ++ '_' :: (x.toList ++ '_' :: k.toList) := by
    rw [toList_literal_append, toList_literal_append, toList_literal_append]
    simp
  have h1 : cut '_' ("setstatus_" ++ x ++ "_" ++ k).toList =
      ("setstatus".toList, x.toList ++ '_' :: k.toList) := by
    rw [hl]
    exact cut_of_not_mem '_' _ _ (by decide)
  have h2 : cut '_' (x.toList ++ '_' :: k.toList) = (x.toList, k.toList) :=
    cut_of_not_mem '_' _ _ hx
  unfold splitN3
  simp only [h1, h2]
  rw [if_neg, if_neg]
  · rfl
  · simp
  · rw [hl]
    simp

/-! ## The store calls of the chat handlers -/

theorem AddsGoodCalls.none {σ : Type} (env : Env σ) (userID : Int) (calls : List StoreCall) :
    AddsGoodCalls env userID calls calls :=
  ⟨[], by simp, by simp⟩

theorem AddsGoodCalls.one {σ : Type} (env : Env σ) (userID : Int) (calls : List StoreCall)
    (c : StoreCall) (h : GoodCall env userID c) :
    AddsGoodCalls env userID calls (calls ++ [c]) :=
  ⟨[c], rfl, by simpa using h⟩

theorem AddsGoodCalls.trans {σ : Type} {env : Env σ} {userID : Int} {a b c : List StoreCall}
    (h1 : AddsGoodCalls env userID a b) (h2 : AddsGoodCalls env userID b c) :
    AddsGoodCalls env userID a c := by
  obtain ⟨n1, rfl, g1⟩ := h1
  obtain ⟨n2, rfl, g2⟩ := h2
  refine ⟨n1 ++ n2, by simp, ?_⟩
  intro x hx
  rcases List.mem_append.1 hx with h | h
  · exact g1 x h
  · exact g2 x h

theorem GoodCall.ownerID_eq {σ : Type} {env : Env σ} {userID : Int} {c : StoreCall}
    (h : GoodCall env userID c) : c.ownerID = userID := by
  cases c <;> simp only [GoodCall] at h <;> first | exact h | exact h.1

theorem handleTaskList_calls {σ : Type} (env : Env σ) (b : Bot σ) (chatID userID : Int) :
    (handleTaskList env b chatID userID).calls = b.calls ++ [.GetTasks userID] := by
  unfold handleTaskList
  simp only []
  split <;> rfl

theorem showTaskDetail_calls {σ : Type} (env : Env σ) (b : Bot σ) (chatID userID taskID : Int) :
    (showTaskDetail env b chatID userID taskID).calls = b.calls ++ [.GetTask userID taskID] := by
  unfold showTaskDetail
  simp only []
  split <;> rfl

theorem handleDelete_calls {σ : Type} (env : Env σ) (b : Bot σ) (chatID userID taskID : Int) :
    (handleDelete env b chatID userID taskID).calls = b.calls ++ [.DeleteTask userID taskID] := by
  unfold handleDelete
  simp only []
  split <;> rfl

theorem statusOfKey_eq_some {σ : Type} (env : Env σ) (key status : String)
    (h : statusOfKey env key = some status) :
    (key = "new" ∧ status = env.StatusNew) ∨ (key = "progress" ∧ status = env.StatusInProgress) ∨
      (key = "done" ∧ status = env.StatusDone) := by
  unfold statusOfKey at h
  by_cases h1 : key = "new"
  · rw [if_pos h1] at h
    exact Or.inl ⟨h1, (Option.some.inj h).symm⟩
  rw [if_neg h1] at h
  by_cases h2 : key = "progress"
  · rw [if_pos h2] at h
    exact Or.inr (Or.inl ⟨h2, (Option.some.inj h).symm⟩)
  rw [if_neg h2] at h
  by_cases h3 : key = "done"
  · rw [if_pos h3] at h
    exact Or.inr (Or.inr ⟨h3, (Option.some.inj h).symm⟩)
  rw [if_neg h3] at h
  exact absurd h (by simp)

theorem statusOfKey_eq_none {σ : Type} (env : Env σ) (key : String) :
    statusOfKey env key = none ↔ key ≠ "new" ∧ key ≠ "progress" ∧ key ≠ "done" := by
  unfold statusOfKey
  by_cases h1 : key = "new"
  · simp [h1]
  by_cases h2 : key = "progress"
  · simp [h2]
  by_cases h3 : key = "done"
  · simp [h3]
  simp [h1, h2, h3]

/-- What `handleSetStatus` does once the data has been split and the ID read. -/
theorem handleSetStatus_eq {σ : Type} (env : Env σ) (b : Bot σ) (chatID userID : Int)
    (data part0 part1 part2 : String) (taskID : Int)
    (hsplit : splitN3 data = some (part0, part1, part2)) (hid : Atoi part1 = some taskID) :
    handleSetStatus env b chatID userID data =
      match statusOfKey env part2 with
      | none => b
      | some status =>
        if (env.UpdateStatus b.storage userID taskID status).2 then
          showTaskDetail env
            (sendText
              { b with storage := (env.UpdateStatus b.storage userID taskID status).1,
                       calls := b.calls ++ [.UpdateStatus userID taskID status] }
              chatID ("✅ Статус изменён на: " ++ status))
            chatID userID taskID
        else
          sendText
            { b with storage := (env.UpdateStatus b.storage userID taskID status).1,
                     calls := b.calls ++ [.UpdateStatus userID taskID status] }
            chatID "⚠️ Задача не найдена." := by
  unfold handleSetStatus statusOfKey
  simp only [hsplit, hid]

theorem handleSetStatus_calls {σ : Type} (env : Env σ) (b : Bot σ) (chatID userID : Int)
    (data : String) :
    AddsGoodCalls env userID b.calls (handleSetStatus env b chatID userID data).calls := by
  rcases hs : splitN3 data with _ | ⟨part0, part1, part2⟩
  · have : handleSetStatus env b chatID userID data = b := by
      unfold handleSetStatus
      simp only [hs]
    rw [this]
    exact AddsGoodCalls.none _ _ _
  rcases hid : Atoi part1 with _ | taskID
  · have : handleSetStatus env b chatID userID data = b := by
      unfold handleSetStatus
      simp only [hs, hid]
    rw [this]
    exact AddsGoodCalls.none _ _ _
  rw [handleSetStatus_eq env b chatID userID data part0 part1 part2 taskID hs hid]
  rcases hk : statusOfKey env part2 with _ | status
  · exact AddsGoodCalls.none _ _ _
  · have hst := statusOfKey_eq_some env part2 status hk
    have hgood : GoodCall env userID (.UpdateStatus userID taskID status) := by
      refine ⟨rfl, ?_⟩
      rcases hst with h | h | h
      · exact Or.inl h.2
      · exact Or.inr (Or.inl h.2)
      · exact Or.inr (Or.inr h.2)
    simp only []
    split
    · rw [showTaskDetail_calls]
      exact (AddsGoodCalls.one env userID b.calls _ hgood).trans
        (AddsGoodCalls.one env userID _ (.GetTask userID taskID) rfl)
    · exact AddsGoodCalls.one env userID b.calls _ hgood

theorem finishTaskCreation_good {σ : Type} (env : Env σ) (b : Bot σ) (chatID userID : Int)
    (description : String) :
    AddsGoodCalls env userID b.calls (finishTaskCreation env b chatID userID description).calls := by
  rw [finishTaskCreation_calls_eq]
  by_cases h : (getUserState b userID).TempTitle = ""
  · rw [if_pos h]
    exact AddsGoodCalls.none _ _ _
  · rw [if_neg h]
    exact AddsGoodCalls.one env userID b.calls _ ⟨rfl, h⟩

theorem handleMessage_good {σ : Type} (env : Env σ) (b : Bot σ) (userID chatID : Int)
    (text : String) :
    AddsGoodCalls env userID b.calls (handleMessage env b userID chatID text).calls := by
  unfold handleMessage
  simp only []
  split
  · exact AddsGoodCalls.none _ _ _
  split
  · exact finishTaskCreation_good env b chatID userID text
  split
  · exact AddsGoodCalls.none _ _ _
  split
  · rw [handleTaskList_calls]
    exact AddsGoodCalls.one env userID b.calls _ rfl
  split
  · exact AddsGoodCalls.none _ _ _
  split
  · exact AddsGoodCalls.none _ _ _
  · exact AddsGoodCalls.none _ _ _

theorem handleCallback_good {σ : Type} (env : Env σ) (b : Bot σ) (cbID : String)
    (userID chatID : Int) (data : String) :
    AddsGoodCalls env userID b.calls (handleCallback env b cbID userID chatID data).calls := by
  unfold handleCallback
  simp only []
  split
  · exact finishTaskCreation_good env { b with answered := b.answered ++ [cbID] } chatID userID ""
  split
  · rw [showTaskDetail_calls]
    exact AddsGoodCalls.one env userID b.calls _ rfl
  split
  · exact AddsGoodCalls.none _ _ _
  split
  · exact handleSetStatus_calls env { b with answered := b.answered ++ [cbID] } chatID userID data
  split
  · exact AddsGoodCalls.none _ _ _
  split
  · rw [handleDelete_calls]
    exact AddsGoodCalls.one env userID b.calls _ rfl
  split
  · rw [handleTaskList_calls]
    exact AddsGoodCalls.one env userID b.calls _ rfl
  · exact AddsGoodCalls.none _ _ _

/-- Every update adds only calls made for its sender, with a non-empty title in
`AddTask` and a status constant in `UpdateStatus`. -/
theorem handleUpdate_good {σ : Type} (env : Env σ) (b : Bot σ) (u : Update) :
    AddsGoodCalls env u.sender b.calls (handleUpdate env b u).calls := by
  cases u with
  | message userID chatID text => exact handleMessage_good env b userID chatID text
  | callback cbID userID chatID data => exact handleCallback_good env b cbID userID chatID data

/-! ## The store calls of the HTTP handlers -/

theorem handleGetTasks_good {σ : Type} (env : Env σ) (s s' : Server σ) (w w' : ResponseWriter)
    (r : Request) (h : handleGetTasks env s w r = some (s', w')) :
    ∃ user, r.user = some user ∧ AddsGoodCalls env user.ID s.calls s'.calls := by
  unfold handleGetTasks at h
  rcases hu : r.user with _ | user
  · simp [hu] at h
  · simp only [hu, Option.some.injEq, Prod.mk.injEq] at h
    refine ⟨user, rfl, ?_⟩
    rw [← h.1]
    exact AddsGoodCalls.one env user.ID s.calls _ rfl

/-- What `handleCreateTask` does with a decoded body. -/
theorem handleCreateTask_eq {σ : Type} (env : Env σ) (D : Decoders) (s : Server σ)
    (w : ResponseWriter) (r : Request) (user : TelegramUser) (title description : String)
    (hu : r.user = some user) (hd : D.decodeCreate r.Body = .ok (title, description)) :
    handleCreateTask env D s w r =
      if title = "" then
        some (s, writeJSON w 400 (.strings [("error", "название задачи обязательно")]))
      else
        some (⟨(env.AddTask s.storage user.ID title description).1,
            s.calls ++ [.AddTask user.ID title description]⟩,
          writeJSON w 201 (.task (env.AddTask s.storage user.ID title description).2)) := by
  unfold handleCreateTask
  simp only [hu, hd]

theorem handleCreateTask_good {σ : Type} (env : Env σ) (D : Decoders) (s s' : Server σ)
    (w w' : ResponseWriter) (r : Request) (h : handleCreateTask env D s w r = some (s', w')) :
    ∃ user, r.user = some user ∧ AddsGoodCalls env user.ID s.calls s'.calls := by
  rcases hu : r.user with _ | user
  · simp [handleCreateTask, hu] at h
  refine ⟨user, rfl, ?_⟩
  rcases hd : D.decodeCreate r.Body with err | ⟨title, description⟩
  · simp only [handleCreateTask, hu, hd, Option.some.injEq, Prod.mk.injEq] at h
    rw [← h.1]
    exact AddsGoodCalls.none _ _ _
  · rw [handleCreateTask_eq env D s w r user title description hu hd] at h
    by_cases ht : title = ""
    · rw [if_pos ht] at h
      simp only [Option.some.injEq, Prod.mk.injEq] at h
      rw [← h.1]
      exact AddsGoodCalls.none _ _ _
    · rw [if_neg ht] at h
      simp only [Option.some.injEq, Prod.mk.injEq] at h
      rw [← h.1]
      exact AddsGoodCalls.one env user.ID s.calls _ ⟨rfl, ht⟩

/-- What `handleUpdateStatus` does once the path ID has been read and the body decoded. -/
theorem handleUpdateStatus_eq {σ : Type} (env : Env σ) (D : Decoders) (s : Server σ)
    (w : ResponseWriter) (r : Request) (user : TelegramUser) (taskID : Int) (key : String)
    (hu : r.user = some user) (hid : Atoi r.PathID = some taskID)
    (hd : D.decodeStatus r.Body = .ok key) :
    handleUpdateStatus env D s w r =
      match statusOfKey env key with
      | none =>
        some (s, writeJSON w 400
          (.strings [("error", "неверный статус (допустимые: new, progress, done)")]))
      | some status =>
        if (env.UpdateStatus s.storage user.ID taskID status).2 then
          some (⟨(env.UpdateStatus s.storage user.ID taskID status).1,
              s.calls ++ [.UpdateStatus user.ID taskID status]⟩,
            writeJSON w 200 (.bools [("ok", true)]))
        else
          some (⟨(env.UpdateStatus s.storage user.ID taskID status).1,
              s.calls ++ [.UpdateStatus user.ID taskID status]⟩,
            writeJSON w 404 (.strings [("error", "задача не найдена")])) := by
  unfold handleUpdateStatus statusOfKey
  simp only [hu, hid, hd]

theorem handleUpdateStatus_good {σ : Type} (env : Env σ) (D : Decoders) (s s' : Server σ)
    (w w' : ResponseWriter) (r : Request) (h : handleUpdateStatus env D s w r = some (s', w')) :
    ∃ user, r.user = some user ∧ AddsGoodCalls env user.ID s.calls s'.calls := by
  rcases hu : r.user with _ | user
  · simp [handleUpdateStatus, hu] at h
  refine ⟨user, rfl, ?_⟩
  rcases hid : Atoi r.PathID with _ | taskID
  · simp only [handleUpdateStatus, hu, hid, Option.some.injEq, Prod.mk.injEq] at h
    rw [← h.1]
    exact AddsGoodCalls.none _ _ _
  rcases hd : D.decodeStatus r.Body with err | key
  · simp only [handleUpdateStatus, hu, hid, hd, Option.some.injEq, Prod.mk.injEq] at h
    rw [← h.1]
    exact AddsGoodCalls.none _ _ _
  rw [handleUpdateStatus_eq env D s w r user taskID key hu hid hd] at h
  rcases hk : statusOfKey env key with _ | status
  · simp only [hk, Option.some.injEq, Prod.mk.injEq] at h
    rw [← h.1]
    exact AddsGoodCalls.none _ _ _
  · have hst := statusOfKey_eq_some env key status hk
    have hgood : GoodCall env user.ID (.UpdateStatus user.ID taskID status) := by
      refine ⟨rfl, ?_⟩
      rcases hst with h | h | h
      · exact Or.inl h.2
      · exact Or.inr (Or.inl h.2)
      · exact Or.inr (Or.inr h.2)
    simp only [hk] at h
    split at h <;>
    · simp only [Option.some.injEq, Prod.mk.injEq] at h
      rw [← h.1]
      exact AddsGoodCalls.one env user.ID s.calls _ hgood

theorem handleDeleteTask_good {σ : Type} (env : Env σ) (s s' : Server σ) (w w' : ResponseWriter)
    (r : Request) (h : handleDeleteTask env s w r = some (s', w')) :
    ∃ user, r.user = some user ∧ AddsGoodCalls env user.ID s.calls s'.calls := by
  rcases hu : r.user with _ | user
  · simp [handleDeleteTask, hu] at h
  refine ⟨user, rfl, ?_⟩
  rcases hid : Atoi r.PathID with _ | taskID
  · simp only [handleDeleteTask, hu, hid, Option.some.injEq, Prod.mk.injEq] at h
    rw [← h.1]
    exact AddsGoodCalls.none _ _ _
  · simp only [handleDeleteTask, hu, hid] at h
    split at h <;>
    · simp only [Option.some.injEq, Prod.mk.injEq] at h
      rw [← h.1]
      exact AddsGoodCalls.one env user.ID s.calls _ rfl

theorem authRoutes_good {σ : Type} (env : Env σ) (D : Decoders) (route : String × ApiHandler σ)
    (hroute : route ∈ authRoutes env D) (s s' : Server σ) (w w' : ResponseWriter) (r : Request)
    (h : route.2 s w r = some (s', w')) :
    ∃ user, r.user = some user ∧ AddsGoodCalls env user.ID s.calls s'.calls := by
  simp only [authRoutes, List.mem_cons, List.mem_singleton, List.not_mem_nil, or_false] at hroute
  rcases hroute with rfl | rfl | rfl | rfl
  · exact handleGetTasks_good env s s' w w' r h
  · exact handleCreateTask_good env D s s' w w' r h
  · exact handleUpdateStatus_good env D s s' w w' r h
  · exact handleDeleteTask_good env s s' w w' r h

theorem AddsGoodCalls.good_of_eq {σ : Type} {env : Env σ} {userID : Int}
    {before after new : List StoreCall} (h : AddsGoodCalls env userID before after)
    (hnew : after = before ++ new) : ∀ c ∈ new, GoodCall env userID c := by
  obtain ⟨new0, h0, g⟩ := h
  rw [h0] at hnew
  rw [← List.append_cancel_left hnew]
  exact g

/-! ## Titles, statuses and owners passed to the task store -/

/-- C11: every call of `AddTask` made by either front end passes a non-empty title.
`handleCreateTask` answers 400 without calling the store when the body does not decode
or the decoded title is empty, and calls `AddTask` with the decoded title otherwise;
`finishTaskCreation` calls `AddTask` only when the staged title is not empty; and among
the calls any of the four routes or any chat update adds, every `AddTask` has a
non-empty title. -/
theorem AddTask_title_nonempty {σ : Type} (env : Env σ) (D : Decoders) :
    (∀ (s : Server σ) (w : ResponseWriter) (r : Request) (user : TelegramUser)
        (title description : String),
      r.user = some user → D.decodeCreate r.Body = .ok (title, description) →
      handleCreateTask env D s w r =
        if title = "" then
          some (s, writeJSON w 400 (.strings [("error", "название задачи обязательно")]))
        else
          some (⟨(env.AddTask s.storage user.ID title description).1,
              s.calls ++ [.AddTask user.ID title description]⟩,
            writeJSON w 201 (.task (env.AddTask s.storage user.ID title description).2))) ∧
    (∀ (s : Server σ) (w : ResponseWriter) (r : Request) (user : TelegramUser) (err : String),
      r.user = some user → D.decodeCreate r.Body = .error err →
      handleCreateTask env D s w r =
        some (s, writeJSON w 400 (.strings [("error", "неверный формат запроса")]))) ∧
    (∀ (b : Bot σ) (chatID userID : Int) (description : String),
      (finishTaskCreation env b chatID userID description).calls =
        if (getUserState b userID).TempTitle = "" then b.calls
        else b.calls ++ [.AddTask userID (getUserState b userID).TempTitle description]) ∧
    (∀ (route : String × ApiHandler σ), route ∈ authRoutes env D →
      ∀ (s s' : Server σ) (w w' : ResponseWriter) (r : Request) (new : List StoreCall),
      route.2 s w r = some (s', w') → s'.calls = s.calls ++ new →
      ∀ ownerID title description, StoreCall.AddTask ownerID title description ∈ new →
        title ≠ "") ∧
    (∀ (b : Bot σ) (u : Update) (new : List StoreCall),
      (handleUpdate env b u).calls = b.calls ++ new →
      ∀ ownerID title description, StoreCall.AddTask ownerID title description ∈ new →
        title ≠ "") := by
  refine ⟨fun s w r user title description hu hd =>
      handleCreateTask_eq env D s w r user title description hu hd,
    fun s w r user err hu hd => ?_,
    fun b chatID userID description => finishTaskCreation_calls_eq env b chatID userID description,
    fun route hroute s s' w w' r new h hnew ownerID title description hmem => ?_,
    fun b u new hnew ownerID title description hmem => ?_⟩
  · unfold handleCreateTask
    simp only [hu, hd]
  · obtain ⟨user, _, hgood⟩ := authRoutes_good env D route hroute s s' w w' r h
    exact (hgood.good_of_eq hnew _ hmem).2
  · exact ((handleUpdate_good env b u).good_of_eq hnew _ hmem).2

/-- C11 at three create requests of user 7 and at a chat dialog: a body with the title
"Buy milk" adds the task, a body with an empty title and a body without a title are
answered 400 with no call of the store. -/
theorem AddTask_title_nonempty_witness :
    handleCreateTask sampleEnv sampleDecoders newServer []
        ⟨"", some ⟨7, "", "", ""⟩, "", "\x7b\"title\":\"Buy milk\"\x7d"⟩ =
      some (⟨⟨[(7, ⟨1, "Buy milk", "", "NEW", 0⟩)], 1⟩, [.AddTask 7 "Buy milk" ""]⟩,
        [⟨201, .task ⟨1, "Buy milk", "", "NEW", 0⟩⟩]) ∧
    handleCreateTask sampleEnv sampleDecoders newServer []
        ⟨"", some ⟨7, "", "", ""⟩, "", "\x7b\"title\":\"\"\x7d"⟩ =
      some (newServer, [⟨400, .strings [("error", "название задачи обязательно")]⟩]) ∧
    handleCreateTask sampleEnv sampleDecoders newServer []
        ⟨"", some ⟨7, "", "", ""⟩, "", "\x7b\x7d"⟩ =
      some (newServer, [⟨400, .strings [("error", "название задачи обязательно")]⟩]) :=
  have h := (AddTask_title_nonempty sampleEnv sampleDecoders).1
  ⟨(h newServer [] ⟨"", some ⟨7, "", "", ""⟩, "", "\x7b\"title\":\"Buy milk\"\x7d"⟩
      ⟨7, "", "", ""⟩ "Buy milk" "" rfl (by decide)).trans (by decide),
   (h newServer [] ⟨"", some ⟨7, "", "", ""⟩, "", "\x7b\"title\":\"\"\x7d"⟩
      ⟨7, "", "", ""⟩ "" "" rfl (by decide)).trans (by decide),
   (h newServer [] ⟨"", some ⟨7, "", "", ""⟩, "", "\x7b\x7d"⟩
      ⟨7, "", "", ""⟩ "" "" rfl (by decide)).trans (by decide)⟩

/-- C14: every call of the task store made while handling a request is made for the
requester: in the HTTP handlers for the ID of the identity in the request context, in
the chat handlers for the sender of the message or callback.  So for two runs with the
same requester, whatever the task IDs, bodies and payloads are, all store calls carry
the same owner. -/
theorem store_calls_owner_is_requester {σ : Type} (env : Env σ) (D : Decoders) :
    (∀ (route : String × ApiHandler σ), route ∈ authRoutes env D →
      ∀ (s s' : Server σ) (w w' : ResponseWriter) (r : Request) (new : List StoreCall),
      route.2 s w r = some (s', w') → s'.calls = s.calls ++ new →
      ∃ user, r.user = some user ∧ ∀ c ∈ new, c.ownerID = user.ID) ∧
    (∀ (b : Bot σ) (u : Update) (new : List StoreCall),
      (handleUpdate env b u).calls = b.calls ++ new → ∀ c ∈ new, c.ownerID = u.sender) ∧
    (∀ (route route' : String × ApiHandler σ), route ∈ authRoutes env D →
      route' ∈ authRoutes env D →
      ∀ (s1 s1' s2 s2' : Server σ) (w1 w1' w2 w2' : ResponseWriter) (r1 r2 : Request)
        (new1 new2 : List StoreCall),
      r1.user = r2.user →
      route.2 s1 w1 r1 = some (s1', w1') → s1'.calls = s1.calls ++ new1 →
      route'.2 s2 w2 r2 = some (s2', w2') → s2'.calls = s2.calls ++ new2 →
      ∀ c1 ∈ new1, ∀ c2 ∈ new2, c1.ownerID = c2.ownerID) ∧
    (∀ (b1 b2 : Bot σ) (u1 u2 : Update) (new1 new2 : List StoreCall),
      u1.sender = u2.sender →
      (handleUpdate env b1 u1).calls = b1.calls ++ new1 →
      (handleUpdate env b2 u2).calls = b2.calls ++ new2 →
      ∀ c1 ∈ new1, ∀ c2 ∈ new2, c1.ownerID = c2.ownerID) := by
  have hapi : ∀ (route : String × ApiHandler σ), route ∈ authRoutes env D →
      ∀ (s s' : Server σ) (w w' : ResponseWriter) (r : Request) (new : List StoreCall),
      route.2 s w r = some (s', w') → s'.calls = s.calls ++ new →
      ∃ user, r.user = some user ∧ ∀ c ∈ new, c.ownerID = user.ID := by
    intro route hroute s s' w w' r new h hnew
    obtain ⟨user, hu, hgood⟩ := authRoutes_good env D route hroute s s' w w' r h
    exact ⟨user, hu, fun c hc => (hgood.good_of_eq hnew c hc).ownerID_eq⟩
  have hbot : ∀ (b : Bot σ) (u : Update) (new : List StoreCall),
      (handleUpdate env b u).calls = b.calls ++ new → ∀ c ∈ new, c.ownerID = u.sender :=
    fun b u new hnew c hc => ((handleUpdate_good env b u).good_of_eq hnew c hc).ownerID_eq
  refine ⟨hapi, hbot, ?_, ?_⟩
  · intro route route' hr hr' s1 s1' s2 s2' w1 w1' w2 w2' r1 r2 new1 new2 hu h1 hn1 h2 hn2
      c1 hc1 c2 hc2
    obtain ⟨user1, hu1, g1⟩ := hapi route hr s1 s1' w1 w1' r1 new1 h1 hn1
    obtain ⟨user2, hu2, g2⟩ := hapi route' hr' s2 s2' w2 w2' r2 new2 h2 hn2
    rw [hu, hu2] at hu1
    rw [g1 c1 hc1, g2 c2 hc2, Option.some.inj hu1]
  · intro b1 b2 u1 u2 new1 new2 hs h1 h2 c1 hc1 c2 hc2
    rw [hbot b1 u1 new1 h1 c1 hc1, hbot b2 u2 new2 h2 c2 hc2, hs]

/-- C14 at a delete request of user 7 for task 3 and at the press of a task button by
user 5: the one store call of each is made for the requester. -/
theorem store_calls_owner_is_requester_witness :
    (∃ user, (⟨"", some ⟨7, "", "", ""⟩, "3", ""⟩ : Request).user = some user ∧
      ∀ c ∈ [StoreCall.DeleteTask 7 3], c.ownerID = user.ID) ∧
    ∀ c ∈ [StoreCall.GetTask 5 3], c.ownerID = 5 :=
  ⟨(store_calls_owner_is_requester sampleEnv sampleDecoders).1
      ("DELETE /api/tasks/\x7bid\x7d", handleDeleteTask sampleEnv) (by simp [authRoutes])
      newServer ⟨newServer.storage, [.DeleteTask 7 3]⟩ []
      [⟨404, .strings [("error", "задача не найдена")]⟩]
      ⟨"", some ⟨7, "", "", ""⟩, "3", ""⟩ [.DeleteTask 7 3] (by decide) (by decide),
   (store_calls_owner_is_requester sampleEnv sampleDecoders).2.1 newBot
      (.callback "cb" 5 5 "task_3") [.GetTask 5 3] (by decide)⟩

/-! ## The status passed to `UpdateStatus` -/

theorem statusOfKey_iff {σ : Type} (env : Env σ) (key status : String) :
    statusOfKey env key = some status ↔
      (key = "new" ∧ status = env.StatusNew) ∨
      (key = "progress" ∧ status = env.StatusInProgress) ∨
      (key = "done" ∧ status = env.StatusDone) := by
  constructor
  · exact statusOfKey_eq_some env key status
  · rintro (⟨rfl, rfl⟩ | ⟨rfl, rfl⟩ | ⟨rfl, rfl⟩)
    · rfl
    · unfold statusOfKey
      rw [if_neg (by decide), if_pos rfl]
    · unfold statusOfKey
      rw [if_neg (by decide), if_neg (by decide), if_pos rfl]

theorem handleSetStatus_payload {σ : Type} (env : Env σ) (b : Bot σ) (chatID userID : Int)
    (n : Int) (key : String) (h : IsGoInt n) :
    handleSetStatus env b chatID userID ("setstatus_" ++ formatInt n ++ "_" ++ key) =
      match statusOfKey env key with
      | none => b
      | some status => applyStatus env b chatID userID n status := by
  rw [handleSetStatus_eq env b chatID userID _ "setstatus" (formatInt n) key n
    (splitN3_setstatus _ _ (formatInt_no_underscore n)) (Atoi_formatInt n h)]
  rfl

theorem handleUpdateStatus_decoded {σ : Type} (env : Env σ) (D : Decoders) (s : Server σ)
    (w : ResponseWriter) (r : Request) (user : TelegramUser) (taskID : Int) (key : String)
    (hu : r.user = some user) (hid : Atoi r.PathID = some taskID)
    (hd : D.decodeStatus r.Body = .ok key) :
    handleUpdateStatus env D s w r =
      match statusOfKey env key with
      | none =>
        some (s, writeJSON w 400
          (.strings [("error", "неверный статус (допустимые: new, progress, done)")]))
      | some status => some (answerStatus env s w user.ID taskID status) := by
  rw [handleUpdateStatus_eq env D s w r user taskID key hu hid hd]
  cases statusOfKey env key with
  | none => rfl
  | some status =>
    simp only [answerStatus]
    split <;> rfl

/-- C12, as stated, fails on the HTTP side: for the body status `new` and the path ID
`abc` the store is not called; the request is answered 400 for the ID. -/
theorem handleUpdateStatus_bad_path_id :
    sampleDecoders.decodeStatus "\x7b\"status\":\"new\"\x7d" = .ok "new" ∧
    handleUpdateStatus sampleEnv sampleDecoders newServer []
        ⟨"", some ⟨7, "", "", ""⟩, "abc", "\x7b\"status\":\"new\"\x7d"⟩ =
      some (newServer, [⟨400, .strings [("error", "неверный ID задачи")]⟩]) ∧
    newServer.calls = [] := by
  decide

/-- C12, amended: every call of `UpdateStatus` made by either front end passes one of
the three status constants.  For an HTTP request whose path ID is a decimal `int` and
whose body decodes to the status string `s`, and for a callback payload
`setstatus_<id>_<s>` with the printed ID of a task, the store is called exactly when `s`
is `new`, `progress` or `done`, with the status mapped to StatusNew, StatusInProgress,
StatusDone by the same mapping in both front ends; for any other `s` no store call is
made, nothing is coerced, and HTTP answers 400.  When the path ID is not a decimal `int`,
or the body does not decode, HTTP answers 400 without a store call whatever `s` is.  The
call is the store's own `UpdateStatus`: the store afterwards is the one it returns. -/
theorem UpdateStatus_status_validated {σ : Type} (env : Env σ) (D : Decoders) :
    (∀ (s : Server σ) (w : ResponseWriter) (r : Request) (user : TelegramUser) (taskID : Int)
        (key : String),
      r.user = some user → Atoi r.PathID = some taskID → D.decodeStatus r.Body = .ok key →
      handleUpdateStatus env D s w r =
        match statusOfKey env key with
        | none =>
          some (s, writeJSON w 400
            (.strings [("error", "неверный статус (допустимые: new, progress, done)")]))
        | some status => some (answerStatus env s w user.ID taskID status)) ∧
    (∀ (s : Server σ) (w : ResponseWriter) (userID taskID : Int) (status : String),
      (answerStatus env s w userID taskID status).1.calls =
        s.calls ++ [.UpdateStatus userID taskID status]) ∧
    (∀ (b : Bot σ) (chatID userID n : Int) (key : String), IsGoInt n →
      handleSetStatus env b chatID userID ("setstatus_" ++ formatInt n ++ "_" ++ key) =
        match statusOfKey env key with
        | none => b
        | some status => applyStatus env b chatID userID n status) ∧
    (∀ (b : Bot σ) (chatID userID taskID : Int) (status : String),
      ∃ more, (applyStatus env b chatID userID taskID status).calls =
        b.calls ++ StoreCall.UpdateStatus userID taskID status :: more) ∧
    (∀ key status, statusOfKey env key = some status ↔
      (key = "new" ∧ status = env.StatusNew) ∨
      (key = "progress" ∧ status = env.StatusInProgress) ∨
      (key = "done" ∧ status = env.StatusDone)) ∧
    (∀ key, statusOfKey env key = none ↔ key ≠ "new" ∧ key ≠ "progress" ∧ key ≠ "done") ∧
    (∀ (route : String × ApiHandler σ), route ∈ authRoutes env D →
      ∀ (s s' : Server σ) (w w' : ResponseWriter) (r : Request) (new : List StoreCall),
      route.2 s w r = some (s', w') → s'.calls = s.calls ++ new →
      ∀ ownerID taskID status, StoreCall.UpdateStatus ownerID taskID status ∈ new →
        status = env.StatusNew ∨ status = env.StatusInProgress ∨ status = env.StatusDone) ∧
    (∀ (b : Bot σ) (u : Update) (new : List StoreCall),
      (handleUpdate env b u).calls = b.calls ++ new →
      ∀ ownerID taskID status, StoreCall.UpdateStatus ownerID taskID status ∈ new →
        status = env.StatusNew ∨ status = env.StatusInProgress ∨ status = env.StatusDone) ∧
    (∀ (s : Server σ) (w : ResponseWriter) (r : Request) (user : TelegramUser),
      r.user = some user → Atoi r.PathID = none →
      handleUpdateStatus env D s w r =
        some (s, writeJSON w 400 (.strings [("error", "неверный ID задачи")]))) ∧
    (∀ (s : Server σ) (w : ResponseWriter) (r : Request) (user : TelegramUser) (taskID : Int)
        (err : String),
      r.user = some user → Atoi r.PathID = some taskID → D.decodeStatus r.Body = .error err →
      handleUpdateStatus env D s w r =
        some (s, writeJSON w 400 (.strings [("error", "неверный формат запроса")]))) ∧
    (∀ (s : Server σ) (w : ResponseWriter) (userID taskID : Int) (status : String),
      (answerStatus env s w userID taskID status).1.storage =
        (env.UpdateStatus s.storage userID taskID status).1) ∧
    (∀ (b : Bot σ) (chatID userID taskID : Int) (status : String),
      (applyStatus env b chatID userID taskID status).storage =
        (env.UpdateStatus b.storage userID taskID status).1) := by
  refine ⟨fun s w r user taskID key hu hid hd =>
      handleUpdateStatus_decoded env D s w r user taskID key hu hid hd,
    fun s w userID taskID status => ?_,
    fun b chatID userID n key h => handleSetStatus_payload env b chatID userID n key h,
    fun b chatID userID taskID status => ?_,
    statusOfKey_iff env, statusOfKey_eq_none env,
    fun route hroute s s' w w' r new h hnew ownerID taskID status hmem => ?_,
    fun b u new hnew ownerID taskID status hmem => ?_,
    fun s w r user hu hid => ?_,
    fun s w r user taskID err hu hid hd => ?_,
    fun s w userID taskID status => ?_,
    fun b chatID userID taskID status => ?_⟩
  · unfold answerStatus
    split <;> rfl
  · unfold applyStatus
    split
    · rw [showTaskDetail_calls]
      exact ⟨[.GetTask userID taskID], by simp [sendText, send]⟩
    · exact ⟨[], rfl⟩
  · obtain ⟨user, _, hgood⟩ := authRoutes_good env D route hroute s s' w w' r h
    exact (hgood.good_of_eq hnew _ hmem).2
  · exact ((handleUpdate_good env b u).good_of_eq hnew _ hmem).2
  · unfold handleUpdateStatus
    simp only [hu, hid]
  · unfold handleUpdateStatus
    simp only [hu, hid, hd]
  · unfold answerStatus
    split <;> rfl
  · unfold applyStatus showTaskDetail
    split
    · simp only []
      split <;> rfl
    · rfl

/-- C12, amended, at task 3 of user 7: the HTTP status `archived` is answered 400 with
no call, the HTTP status `done` and the callback data `setstatus_3_done` call
`UpdateStatus` with the constant for done, the data `setstatus_3_archived` does
nothing, and the path ID `3x` is answered 400 with no call though the status is `done`. -/
theorem UpdateStatus_status_validated_witness :
    handleUpdateStatus sampleEnv sampleDecoders newServer []
        ⟨"", some ⟨7, "", "", ""⟩, "3", "\x7b\"status\":\"archived\"\x7d"⟩ =
      some (newServer, [⟨400,
        .strings [("error", "неверный статус (допустимые: new, progress, done)")]⟩]) ∧
    handleUpdateStatus sampleEnv sampleDecoders newServer []
        ⟨"", some ⟨7, "", "", ""⟩, "3", "\x7b\"status\":\"done\"\x7d"⟩ =
      some (⟨newServer.storage, [.UpdateStatus 7 3 "DONE"]⟩,
        [⟨404, .strings [("error", "задача не найдена")]⟩]) ∧
    (handleSetStatus sampleEnv newBot 7 7 ("setstatus_" ++ formatInt 3 ++ "_" ++ "done")).calls =
      [.UpdateStatus 7 3 "DONE"] ∧
    (handleSetStatus sampleEnv newBot 7 7
      ("setstatus_" ++ formatInt 3 ++ "_" ++ "archived")).calls = [] ∧
    handleUpdateStatus sampleEnv sampleDecoders newServer []
        ⟨"", some ⟨7, "", "", ""⟩, "3x", "\x7b\"status\":\"done\"\x7d"⟩ =
      some (newServer, [⟨400, .strings [("error", "неверный ID задачи")]⟩]) :=
  have h := UpdateStatus_status_validated sampleEnv sampleDecoders
  ⟨(h.1 newServer [] ⟨"", some ⟨7, "", "", ""⟩, "3", "\x7b\"status\":\"archived\"\x7d"⟩
      ⟨7, "", "", ""⟩ 3 "archived" rfl (by decide) (by decide)).trans (by decide),
   (h.1 newServer [] ⟨"", some ⟨7, "", "", ""⟩, "3", "\x7b\"status\":\"done\"\x7d"⟩
      ⟨7, "", "", ""⟩ 3 "done" rfl (by decide) (by decide)).trans (by decide),
   (congrArg Bot.calls (h.2.2.1 newBot 7 7 3 "done" (by unfold IsGoInt; decide))).trans
      (by decide),
   (congrArg Bot.calls (h.2.2.1 newBot 7 7 3 "archived" (by unfold IsGoInt; decide))).trans
      (by decide),
   h.2.2.2.2.2.2.2.2.1 newServer []
      ⟨"", some ⟨7, "", "", ""⟩, "3x", "\x7b\"status\":\"done\"\x7d"⟩ ⟨7, "", "", ""⟩ rfl
      (by decide)⟩

/-! ## Routing of the callback data -/

theorem not_HasStart_literal (p q x : String)
    (h : ∀ l : List Char, dropStart q.toList (p.toList ++ l) = none) :
    ¬ HasStart (p ++ x) q = true := by
  unfold HasStart
  rw [toList_literal_append, h]
  decide

theorem ne_literal (p q x : String) (h : ∀ l : List Char, p.toList ++ l ≠ q.toList) :
    ¬ p ++ x = q := by
  intro e
  have := congrArg String.toList e
  rw [toList_literal_append] at this
  exact h _ this

theorem handleCallback_task {σ : Type} (env : Env σ) (b : Bot σ) (cbID : String)
    (userID chatID : Int) (x : String) :
    handleCallback env b cbID userID chatID ("task_" ++ x) =
      showTaskDetail env { b with answered := b.answered ++ [cbID] } chatID userID
        (parseID ("task_" ++ x) "task_") := by
  unfold handleCallback
  simp only []
  rw [if_neg (ne_literal "task_" "skip" x (fun l => by simp)),
    if_pos (HasStart_append "task_" x)]

theorem handleCallback_status {σ : Type} (env : Env σ) (b : Bot σ) (cbID : String)
    (userID chatID : Int) (x : String) :
    handleCallback env b cbID userID chatID ("status_" ++ x) =
      showStatusSelection env { b with answered := b.answered ++ [cbID] } chatID
        (parseID ("status_" ++ x) "status_") := by
  unfold handleCallback
  simp only []
  rw [if_neg (ne_literal "status_" "skip" x (fun l => by simp)),
    if_neg (not_HasStart_literal "status_" "task_" x (fun _ => rfl)),
    if_pos (HasStart_append "status_" x)]

theorem handleCallback_setstatus {σ : Type} (env : Env σ) (b : Bot σ) (cbID : String)
    (userID chatID : Int) (x : String) :
    handleCallback env b cbID userID chatID ("setstatus_" ++ x) =
      handleSetStatus env { b with answered := b.answered ++ [cbID] } chatID userID
        ("setstatus_" ++ x) := by
  unfold handleCallback
  simp only []
  rw [if_neg (ne_literal "setstatus_" "skip" x (fun l => by simp)),
    if_neg (not_HasStart_literal "setstatus_" "task_" x (fun _ => rfl)),
    if_neg (not_HasStart_literal "setstatus_" "status_" x (fun _ => rfl)),
    if_pos (HasStart_append "setstatus_" x)]

theorem handleCallback_delete {σ : Type} (env : Env σ) (b : Bot σ) (cbID : String)
    (userID chatID : Int) (x : String) :
    handleCallback env b cbID userID chatID ("delete_" ++ x) =
      showDeleteConfirmation { b with answered := b.answered ++ [cbID] } chatID
        (parseID ("delete_" ++ x) "delete_") := by
  unfold handleCallback
  simp only []
  rw [if_neg (ne_literal "delete_" "skip" x (fun l => by simp)),
    if_neg (not_HasStart_literal "delete_" "task_" x (fun _ => rfl)),
    if_neg (not_HasStart_literal "delete_" "status_" x (fun _ => rfl)),
    if_neg (not_HasStart_literal "delete_" "setstatus_" x (fun _ => rfl)),
    if_pos (HasStart_append "delete_" x)]

theorem handleCallback_confirm_delete {σ : Type} (env : Env σ) (b : Bot σ) (cbID : String)
    (userID chatID : Int) (x : String) :
    handleCallback env b cbID userID chatID ("confirm_delete_" ++ x) =
      handleDelete env { b with answered := b.answered ++ [cbID] } chatID userID
        (parseID ("confirm_delete_" ++ x) "confirm_delete_") := by
  unfold handleCallback
  simp only []
  rw [if_neg (ne_literal "confirm_delete_" "skip" x (fun l => by simp)),
    if_neg (not_HasStart_literal "confirm_delete_" "task_" x (fun _ => rfl)),
    if_neg (not_HasStart_literal "confirm_delete_" "status_" x (fun _ => rfl)),
    if_neg (not_HasStart_literal "confirm_delete_" "setstatus_" x (fun _ => rfl)),
    if_neg (not_HasStart_literal "confirm_delete_" "delete_" x (fun _ => rfl)),
    if_pos (HasStart_append "confirm_delete_" x)]

theorem handleCallback_skip {σ : Type} (env : Env σ) (b : Bot σ) (cbID : String)
    (userID chatID : Int) :
    handleCallback env b cbID userID chatID "skip" =
      finishTaskCreation env { b with answered := b.answered ++ [cbID] } chatID userID "" := by
  unfold handleCallback
  simp only [if_true]

theorem handleCallback_back_to_list {σ : Type} (env : Env σ) (b : Bot σ) (cbID : String)
    (userID chatID : Int) :
    handleCallback env b cbID userID chatID "back_to_list" =
      handleTaskList env { b with answered := b.answered ++ [cbID] } chatID userID := by
  unfold handleCallback
  simp only []
  rw [if_neg (by decide), if_neg (by decide), if_neg (by decide), if_neg (by decide),
    if_neg (by decide), if_neg (by decide)]
  simp only [if_true]

theorem setstatus_payload_eq (n : Int) (key : String) :
    "setstatus_" ++ formatInt n ++ ("_" ++ key) = "setstatus_" ++ (formatInt n ++ "_" ++ key) ∧
    "setstatus_" ++ formatInt n ++ ("_" ++ key) = "setstatus_" ++ formatInt n ++ "_" ++ key := by
  simp only [String.append_assoc, and_self]

/-! ## Keyboards and dispatcher: the round trip -/

theorem taskListKeyboard_payloads (tasks : List Task) :
    (taskListKeyboard tasks).payloads = tasks.map (fun task => "task_" ++ formatInt task.ID) := by
  unfold taskListKeyboard Markup.payloads
  induction tasks with
  | nil => rfl
  | cons t ts ih => simpa using ih

theorem handleCallback_setstatus_key {σ : Type} (env : Env σ) (b : Bot σ) (cbID : String)
    (userID chatID n : Int) (key : String) (h : IsGoInt n) :
    handleCallback env b cbID userID chatID ("setstatus_" ++ formatInt n ++ ("_" ++ key)) =
      match statusOfKey env key with
      | none => { b with answered := b.answered ++ [cbID] }
      | some status =>
        applyStatus env { b with answered := b.answered ++ [cbID] } chatID userID n status := by
  rw [(setstatus_payload_eq n key).1, handleCallback_setstatus, ← (setstatus_payload_eq n key).1,
    (setstatus_payload_eq n key).2, handleSetStatus_payload _ _ _ _ _ _ h]

/-- C16: every callback payload the inline keyboards emit for a task ID `n` is routed
by `handleCallback` to the action it was made for, with the task ID read back equal to
`n`: `task_n` to the task detail, `status_n` to the status selection, `delete_n` to the
delete confirmation, `confirm_delete_n` to the delete, `setstatus_n_k` to setting the
status of key `k`, `skip` to the skip and `back_to_list` to the task list; no payload is
taken by an earlier prefix case, and `parseID` reads the ID back after any prefix. -/
theorem callback_round_trip {σ : Type} (env : Env σ) (b : Bot σ) (cbID : String)
    (userID chatID n : Int) (h : IsGoInt n) :
    (∀ tasks : List Task,
      (taskListKeyboard tasks).payloads =
        tasks.map (fun task => "task_" ++ formatInt task.ID)) ∧
    (taskActionsKeyboard n).payloads =
      ["status_" ++ formatInt n, "delete_" ++ formatInt n, "back_to_list"] ∧
    (statusKeyboard env n).payloads =
      ["setstatus_" ++ formatInt n ++ "_new", "setstatus_" ++ formatInt n ++ "_progress",
       "setstatus_" ++ formatInt n ++ "_done", "task_" ++ formatInt n] ∧
    skipKeyboard.payloads = ["skip"] ∧
    (confirmDeleteKeyboard n).payloads =
      ["confirm_delete_" ++ formatInt n, "task_" ++ formatInt n] ∧
    handleCallback env b cbID userID chatID ("task_" ++ formatInt n) =
      showTaskDetail env { b with answered := b.answered ++ [cbID] } chatID userID n ∧
    handleCallback env b cbID userID chatID ("status_" ++ formatInt n) =
      showStatusSelection env { b with answered := b.answered ++ [cbID] } chatID n ∧
    handleCallback env b cbID userID chatID ("delete_" ++ formatInt n) =
      showDeleteConfirmation { b with answered := b.answered ++ [cbID] } chatID n ∧
    handleCallback env b cbID userID chatID ("confirm_delete_" ++ formatInt n) =
      handleDelete env { b with answered := b.answered ++ [cbID] } chatID userID n ∧
    handleCallback env b cbID userID chatID ("setstatus_" ++ formatInt n ++ "_new") =
      applyStatus env { b with answered := b.answered ++ [cbID] } chatID userID n
        env.StatusNew ∧
    handleCallback env b cbID userID chatID ("setstatus_" ++ formatInt n ++ "_progress") =
      applyStatus env { b with answered := b.answered ++ [cbID] } chatID userID n
        env.StatusInProgress ∧
    handleCallback env b cbID userID chatID ("setstatus_" ++ formatInt n ++ "_done") =
      applyStatus env { b with answered := b.answered ++ [cbID] } chatID userID n
        env.StatusDone ∧
    handleCallback env b cbID userID chatID "skip" =
      finishTaskCreation env { b with answered := b.answered ++ [cbID] } chatID userID "" ∧
    handleCallback env b cbID userID chatID "back_to_list" =
      handleTaskList env { b with answered := b.answered ++ [cbID] } chatID userID ∧
    ∀ pre : String, parseID (pre ++ formatInt n) pre = n := by
  refine ⟨taskListKeyboard_payloads, rfl, rfl, rfl, rfl, ?_, ?_, ?_, ?_, ?_, ?_, ?_,
    handleCallback_skip env b cbID userID chatID,
    handleCallback_back_to_list env b cbID userID chatID,
    fun pre => parseID_formatInt pre n h⟩
  · rw [handleCallback_task, parseID_formatInt _ n h]
  · rw [handleCallback_status, parseID_formatInt _ n h]
  · rw [handleCallback_delete, parseID_formatInt _ n h]
  · rw [handleCallback_confirm_delete, parseID_formatInt _ n h]
  · exact handleCallback_setstatus_key env b cbID userID chatID n "new" h
  · exact handleCallback_setstatus_key env b cbID userID chatID n "progress" h
  · exact handleCallback_setstatus_key env b cbID userID chatID n "done" h

/-- C16 at the task IDs 42, 0 and -7: the ID is read back from the payload, and the
payload `delete_42` leads to the delete confirmation for task 42. -/
theorem callback_round_trip_witness :
    parseID ("task_" ++ formatInt 42) "task_" = 42 ∧
    parseID ("confirm_delete_" ++ formatInt 0) "confirm_delete_" = 0 ∧
    parseID ("status_" ++ formatInt (-7)) "status_" = -7 ∧
    handleCallback sampleEnv newBot "cb" 5 5 ("delete_" ++ formatInt 42) =
      showDeleteConfirmation { newBot with answered := newBot.answered ++ ["cb"] } 5 42 :=
  ⟨(callback_round_trip sampleEnv newBot "cb" 5 5 42
      (by unfold IsGoInt; decide)).2.2.2.2.2.2.2.2.2.2.2.2.2.2 "task_",
   (callback_round_trip sampleEnv newBot "cb" 5 5 0
      (by unfold IsGoInt; decide)).2.2.2.2.2.2.2.2.2.2.2.2.2.2 "confirm_delete_",
   (callback_round_trip sampleEnv newBot "cb" 5 5 (-7)
      (by unfold IsGoInt; decide)).2.2.2.2.2.2.2.2.2.2.2.2.2.2 "status_",
   (callback_round_trip sampleEnv newBot "cb" 5 5 42
      (by unfold IsGoInt; decide)).2.2.2.2.2.2.2.1⟩

/-! ## The step check before dispatch -/

theorem handleSetStatus_no_AddTask {σ : Type} (env : Env σ) (b : Bot σ) (chatID userID : Int)
    (data : String) (new : List StoreCall)
    (hnew : (handleSetStatus env b chatID userID data).calls = b.calls ++ new)
    (ownerID : Int) (title description : String) :
    StoreCall.AddTask ownerID title description ∉ new := by
  have key : ∀ (x : Bot σ), x.calls = b.calls ∨
      (∃ c1, (∀ o t d, c1 ≠ StoreCall.AddTask o t d) ∧ x.calls = b.calls ++ [c1]) ∨
      (∃ c1 c2, (∀ o t d, c1 ≠ StoreCall.AddTask o t d) ∧ (∀ o t d, c2 ≠ StoreCall.AddTask o t d) ∧
        x.calls = b.calls ++ [c1, c2]) →
      x.calls = b.calls ++ new → StoreCall.AddTask ownerID title description ∉ new := by
    intro x hx hn
    rcases hx with e | ⟨c1, h1, e⟩ | ⟨c1, c2, h1, h2, e⟩
    · rw [e] at hn
      have : new = [] := by simpa using hn
      simp [this]
    · rw [e] at hn
      rw [← List.append_cancel_left hn]
      simpa using (h1 ownerID title description).symm
    · rw [e] at hn
      rw [← List.append_cancel_left hn]
      simpa using ⟨(h1 ownerID title description).symm, (h2 ownerID title description).symm⟩
  refine key _ ?_ hnew
  rcases hs : splitN3 data with _ | ⟨part0, part1, part2⟩
  · left
    unfold handleSetStatus
    simp only [hs]
  rcases hid : Atoi part1 with _ | taskID
  · left
    unfold handleSetStatus
    simp only [hs, hid]
  rw [handleSetStatus_eq env b chatID userID data part0 part1 part2 taskID hs hid]
  rcases hk : statusOfKey env part2 with _ | status
  · left; rfl
  · simp only []
    split
    · right; right
      refine ⟨.UpdateStatus userID taskID status, .GetTask userID taskID, by simp, by simp, ?_⟩
      rw [showTaskDetail_calls]
      simp [sendText, send]
    · right; left
      exact ⟨.UpdateStatus userID taskID status, by simp, rfl⟩

theorem not_mem_of_append_single {before new : List StoreCall} {c x : StoreCall}
    (h : before ++ [c] = before ++ new) (hx : x ≠ c) : x ∉ new := by
  rw [← List.append_cancel_left h]
  simpa using hx

theorem not_mem_of_append_nil {before new : List StoreCall} {x : StoreCall}
    (h : before = before ++ new) : x ∉ new := by
  have : new = [] := by simpa using h
  simp [this]

/-- A callback other than `skip` adds no `AddTask` call. -/
theorem handleCallback_no_AddTask {σ : Type} (env : Env σ) (b : Bot σ) (cbID : String)
    (userID chatID : Int) (data : String) (hd : data ≠ "skip") (new : List StoreCall)
    (hnew : (handleCallback env b cbID userID chatID data).calls = b.calls ++ new)
    (ownerID : Int) (title description : String) :
    StoreCall.AddTask ownerID title description ∉ new := by
  unfold handleCallback at hnew
  simp only [] at hnew
  rw [if_neg hd] at hnew
  split at hnew
  · rw [showTaskDetail_calls] at hnew
    exact not_mem_of_append_single hnew (by simp)
  split at hnew
  · exact not_mem_of_append_nil hnew
  split at hnew
  · exact handleSetStatus_no_AddTask env { b with answered := b.answered ++ [cbID] } chatID
      userID data new hnew ownerID title description
  split at hnew
  · exact not_mem_of_append_nil hnew
  split at hnew
  · rw [handleDelete_calls] at hnew
    exact not_mem_of_append_single hnew (by simp)
  split at hnew
  · rw [handleTaskList_calls] at hnew
    exact not_mem_of_append_single hnew (by simp)
  · exact not_mem_of_append_nil hnew

/-- A message adds an `AddTask` call only when its sender is in the step in which the
description is awaited. -/
theorem handleMessage_AddTask_step {σ : Type} (env : Env σ) (b : Bot σ) (userID chatID : Int)
    (text : String) (new : List StoreCall)
    (hnew : (handleMessage env b userID chatID text).calls = b.calls ++ new)
    (ownerID : Int) (title description : String)
    (hmem : StoreCall.AddTask ownerID title description ∈ new) :
    (getUserState b userID).Step = StepWaitDesc := by
  by_contra hstep
  unfold handleMessage at hnew
  simp only [] at hnew
  split at hnew
  · exact not_mem_of_append_nil hnew hmem
  split at hnew
  · exact not_mem_of_append_nil hnew hmem
  split at hnew
  · rw [handleTaskList_calls] at hnew
    exact not_mem_of_append_single hnew (by simp) hmem
  split at hnew
  · exact not_mem_of_append_nil hnew hmem
  split at hnew
  · exact not_mem_of_append_nil hnew hmem
  · exact not_mem_of_append_nil hnew hmem

/-- C15, as stated, fails for the skip callback: it is dispatched to
`finishTaskCreation` in every step.  For a user at step NONE, and for a user at step
AWAITING_TITLE, a press of a skip button makes the bot send the message of
`finishTaskCreation` and reset the state. -/
theorem skip_dispatched_in_every_step :
    (getUserState newBot 5).Step = StepNone ∧ StepNone ≠ StepWaitDesc ∧
    (handleCallback sampleEnv newBot "cb" 5 5 "skip").sent =
      [⟨5, "⚠️ Что-то пошло не так. Попробуй создать задачу заново.", "", .none⟩] ∧
    (getUserState (handleNewTask newBot 5 5) 5).Step = StepWaitTitle ∧
    StepWaitTitle ≠ StepWaitDesc ∧
    (handleCallback sampleEnv (handleNewTask newBot 5 5) "cb" 5 5 "skip").sent =
      [⟨5, "✏️ Введи название задачи:", "", .none⟩,
       ⟨5, "⚠️ Что-то пошло не так. Попробуй создать задачу заново.", "", .none⟩] ∧
    getUserState (handleCallback sampleEnv (handleNewTask newBot 5 5) "cb" 5 5 "skip") 5 =
      ⟨StepNone, ""⟩ ∧
    ∀ (b : Bot SampleStore) (cbID : String) (userID chatID : Int),
      handleCallback sampleEnv b cbID userID chatID "skip" =
        finishTaskCreation sampleEnv { b with answered := b.answered ++ [cbID] } chatID
          userID "" :=
  ⟨by decide, by decide, by decide, by decide, by decide, by decide, by decide,
    fun b cbID userID chatID => handleCallback_skip sampleEnv b cbID userID chatID⟩

/-- C15, amended: `handleMessage` checks the step of the sender before it dispatches a
text: the text is title input (`handleTitleInput`) exactly when the step is
AWAITING_TITLE, description input (`finishTaskCreation`) exactly when the step is
AWAITING_DESCRIPTION, and a command or menu button only when the step is neither; the
step becomes AWAITING_DESCRIPTION only from AWAITING_TITLE and a message adds a task
only in AWAITING_DESCRIPTION.  `handleCallback` checks no step: `skip` is dispatched to
`finishTaskCreation` in every step, and any other callback changes no dialog state and
adds no task. -/
theorem dispatch_by_step {σ : Type} (env : Env σ) (b : Bot σ) (userID chatID : Int)
    (text cbID data : String) :
    ((getUserState b userID).Step = StepWaitTitle →
      handleMessage env b userID chatID text = handleTitleInput b chatID userID text) ∧
    ((getUserState b userID).Step = StepWaitDesc →
      handleMessage env b userID chatID text = finishTaskCreation env b chatID userID text) ∧
    ((getUserState b userID).Step ≠ StepWaitTitle → (getUserState b userID).Step ≠ StepWaitDesc →
      handleMessage env b userID chatID text =
        if text = "/start" then handleStart env b chatID
        else if text = "📋 Мои задачи" then handleTaskList env b chatID userID
        else if text = "➕ Новая задача" then handleNewTask b chatID userID
        else if text = "ℹ️ О боте" then handleAbout b chatID
        else sendText b chatID "🤔 Не понимаю. Используй кнопки меню 👇") ∧
    ((getUserState (handleMessage env b userID chatID text) userID).Step = StepWaitDesc ↔
      (getUserState b userID).Step = StepWaitTitle) ∧
    (∀ (new : List StoreCall) (ownerID : Int) (title description : String),
      (handleMessage env b userID chatID text).calls = b.calls ++ new →
      StoreCall.AddTask ownerID title description ∈ new →
      (getUserState b userID).Step = StepWaitDesc) ∧
    handleCallback env b cbID userID chatID "skip" =
      finishTaskCreation env { b with answered := b.answered ++ [cbID] } chatID userID "" ∧
    (data ≠ "skip" →
      (∀ v, getUserState (handleCallback env b cbID userID chatID data) v = getUserState b v) ∧
      ∀ (new : List StoreCall) (ownerID : Int) (title description : String),
        (handleCallback env b cbID userID chatID data).calls = b.calls ++ new →
        StoreCall.AddTask ownerID title description ∉ new) := by
  refine ⟨fun h => ?_, fun h => ?_, fun h1 h2 => ?_, ?_,
    fun new ownerID title description hnew hmem =>
      handleMessage_AddTask_step env b userID chatID text new hnew ownerID title description hmem,
    handleCallback_skip env b cbID userID chatID, fun hd => ⟨fun v => ?_, ?_⟩⟩
  · unfold handleMessage
    simp only [h, if_true]
  · unfold handleMessage
    simp only [h]
    rw [if_neg (by decide)]
    simp only [if_true]
    rfl
  · unfold handleMessage
    simp only [h1, h2, if_false]
  · rw [handleMessage_states, if_pos rfl]
    by_cases h1 : (getUserState b userID).Step = StepWaitTitle
    · simp [h1]
    rw [if_neg h1]
    by_cases h2 : (getUserState b userID).Step = StepWaitDesc
    · rw [if_pos h2]
      simp only [h1, iff_false]
      decide
    rw [if_neg h2]
    by_cases t : text = "➕ Новая задача"
    · rw [if_pos t]
      simp only [h1, iff_false]
      decide
    · rw [if_neg t]
      simp only [h1, iff_false]
      exact h2
  · rw [handleCallback_states]
    simp [hd]
  · intro new ownerID title description hnew
    exact handleCallback_no_AddTask env b cbID userID chatID data hd new hnew ownerID title
      description

/-- C15, amended, at a user who is asked for the title: the text "Buy milk" is taken as
the title, and the press of a task button changes no dialog state. -/
theorem dispatch_by_step_witness :
    handleMessage sampleEnv (handleNewTask newBot 5 5) 5 5 "Buy milk" =
      handleTitleInput (handleNewTask newBot 5 5) 5 5 "Buy milk" ∧
    ∀ v, getUserState (handleCallback sampleEnv (handleNewTask newBot 5 5) "cb" 5 5 "task_1") v =
      getUserState (handleNewTask newBot 5 5) v :=
  ⟨(dispatch_by_step sampleEnv (handleNewTask newBot 5 5) 5 5 "Buy milk" "cb" "task_1").1
      (by decide),
   ((dispatch_by_step sampleEnv (handleNewTask newBot 5 5) 5 5 "Buy milk" "cb"
      "task_1").2.2.2.2.2.2 (by decide)).1⟩

end TaskManager
